import Mathlib

/-!
Verification development for the solar-logistics repository.

The game engine (src/lib/gameLogic.ts, src/lib/difficulty.ts) is embedded
with exact rational arithmetic standing in for JavaScript numbers; the
geometric distance model (src/unnamed optimizer and orbital-mechanics
modules) is embedded over the reals.  The facility-location algorithms are
embedded over an abstract distance matrix, mirroring the fact that in the
source every downstream computation consumes only the precomputed matrix
of site-to-colony distances.
-/

namespace SolarLogistics

/-- Per-category resource quantities (the shape of demand, inventory and
cargo records in src/unnamed/part_003). -/
structure Resources where
  life_support : ℚ
  fuel : ℚ
  materials : ℚ
  equipment : ℚ
  deriving DecidableEq, Repr

def Resources.zero : Resources := ⟨0, 0, 0, 0⟩

def Resources.add (a b : Resources) : Resources :=
  ⟨a.life_support + b.life_support, a.fuel + b.fuel,
   a.materials + b.materials, a.equipment + b.equipment⟩

/-- Total of the four categories, as summed inline throughout the source
(demand and inventory totals). -/
def Resources.total (r : Resources) : ℚ :=
  r.life_support + r.fuel + r.materials + r.equipment

/-- CelestialBody from src/unnamed/part_003, with the optional elliptical
fields used by src/unnamed/part_001 (display-only fields such as nameJa
and the type tag are omitted; they are never read by the core). -/
structure CelestialBody where
  id : String
  name : String
  orbitalRadius : ℚ
  currentAngle : ℚ
  orbitalPeriod : ℚ
  eccentricity : Option ℚ
  longitudeOfPerihelion : Option ℚ
  inclination : Option ℚ
  deriving DecidableEq, Repr

/-- Colony extends CelestialBody (src/unnamed/part_003). -/
structure Colony extends CelestialBody where
  population : ℚ
  demand : Resources
  inventory : Resources
  satisfaction : ℚ
  deriving DecidableEq, Repr

/-- Depot extends CelestialBody (src/unnamed/part_003; the depotType tag
and specialAbility are never read by the engine and are omitted). -/
structure Depot extends CelestialBody where
  constructionCost : ℚ
  maintenanceCost : ℚ
  capacity : ℚ
  currentStock : ℚ
  deriving DecidableEq, Repr

inductive RouteStatus where
  | planned
  | in_transit
  | delivered
  deriving DecidableEq, Repr

/-- Route from src/unnamed/part_003.  The source fields named from and to
are spelled fromId and toId here (from and to are Lean keywords). -/
structure Route where
  id : String
  fromId : String
  toId : String
  cargo : Resources
  cost : ℚ
  duration : ℤ
  status : RouteStatus
  deriving DecidableEq, Repr

structure Score where
  deliveryRate : ℚ
  costEfficiency : ℚ
  avgDeliveryTime : ℚ
  customerSatisfaction : ℚ
  totalScore : ℚ
  deriving DecidableEq, Repr

inductive GameOverReason where
  | bankruptcy
  | max_turns
  | all_colonies_lost
  | victory
  deriving DecidableEq, Repr

structure HistoryEntry where
  turn : ℕ
  budget : ℚ
  totalScore : ℚ
  deliveryRate : ℚ
  customerSatisfaction : ℚ
  coloniesServed : ℕ
  deriving DecidableEq, Repr

inductive Difficulty where
  | easy
  | normal
  | hard
  deriving DecidableEq, Repr

/-- DifficultySettings (src/lib/difficulty.ts; display strings omitted). -/
structure DifficultySettings where
  initialBudget : ℚ
  demandMultiplier : ℚ
  incomeMultiplier : ℚ
  maintenanceMultiplier : ℚ
  satisfactionDecayMultiplier : ℚ
  deriving DecidableEq, Repr

/-- The numeric tuples of difficultySettings in src/lib/difficulty.ts. -/
def getDifficultySettings : Difficulty → DifficultySettings
  | Difficulty.easy => ⟨15000, 7/10, 12/10, 8/10, 7/10⟩
  | Difficulty.normal => ⟨10000, 1, 1, 1, 1⟩
  | Difficulty.hard => ⟨7000, 13/10, 8/10, 15/10, 13/10⟩

/-- GameState aggregate (src/unnamed/part_003 with the epoch field used by
src/lib/gameLogic.ts; the startedAt and lastSavedAt wall-clock timestamps
are environment inputs and are omitted). -/
structure GameState where
  currentTurn : ℕ
  year : ℕ
  month : ℕ
  epoch : ℚ
  budget : ℚ
  income : ℚ
  expenses : ℚ
  colonies : List Colony
  depots : List Depot
  routes : List Route
  score : Score
  isGameOver : Bool
  gameOverReason : Option GameOverReason
  history : List HistoryEntry
  difficulty : Difficulty
  deriving DecidableEq, Repr

/-- JavaScript Math.round: round half toward positive infinity. -/
def jsRound (q : ℚ) : ℚ := ((⌊q + 1/2⌋ : ℤ) : ℚ)

/-- Math.round(x * 10) / 10, the one-decimal rounding used for scores. -/
def round1 (q : ℚ) : ℚ := jsRound (q * 10) / 10

/-- JavaScript remainder operator (sign of the dividend). -/
def jsMod (a b : ℚ) : ℚ :=
  a - b * (if 0 ≤ a / b then ((⌊a / b⌋ : ℤ) : ℚ) else ((⌈a / b⌉ : ℤ) : ℚ))

/-- One month of orbital advance for a body, from updateOrbitalPositions in
src/lib/gameLogic.ts: angle := (angle + (360 / period) * 30) % 360. -/
def advanceAngle (orbitalPeriod currentAngle : ℚ) : ℚ :=
  jsMod (currentAngle + (360 / orbitalPeriod) * 30) 360

/-- updateOrbitalPositions (src/lib/gameLogic.ts lines 95-105). -/
def updateOrbitalPositions (s : GameState) : GameState :=
  { s with
    colonies := s.colonies.map (fun c =>
      { c with currentAngle := advanceAngle c.orbitalPeriod c.currentAngle }),
    depots := s.depots.map (fun d =>
      { d with currentAngle := advanceAngle d.orbitalPeriod d.currentAngle }) }

/-- Subtract demand then clamp every category at zero, as consumeInventory
does per colony (src/lib/gameLogic.ts lines 110-123). -/
def consumeOne (inv dem : Resources) : Resources :=
  ⟨max 0 (inv.life_support - dem.life_support),
   max 0 (inv.fuel - dem.fuel),
   max 0 (inv.materials - dem.materials),
   max 0 (inv.equipment - dem.equipment)⟩

/-- consumeInventory (src/lib/gameLogic.ts lines 110-123). -/
def consumeInventory (s : GameState) : GameState :=
  { s with colonies := s.colonies.map (fun c =>
      { c with inventory := consumeOne c.inventory c.demand }) }

/-- The per-route mutation of processRoutes: an in-transit route has its
duration decremented and becomes delivered when it reaches zero or less. -/
def tickRoute (r : Route) : Route :=
  if r.status = RouteStatus.in_transit then
    let r1 : Route := { r with duration := r.duration - 1 }
    if r1.duration ≤ 0 then { r1 with status := RouteStatus.delivered } else r1
  else r

/-- Whether this turn of processRoutes completes the route: it is in
transit and its decremented duration is at or below zero. -/
def routeCompletes (r : Route) : Bool :=
  r.status == RouteStatus.in_transit && decide (r.duration ≤ 1)

/-- Add cargo to the inventory of the first colony with the given id, as
state.colonies.find followed by unclamped addition does in processRoutes;
when no colony matches, the list is unchanged (cargo dropped). -/
def addCargoFirst : List Colony → String → Resources → List Colony
  | [], _, _ => []
  | c :: cs, cid, cargo =>
    if c.id = cid then { c with inventory := c.inventory.add cargo } :: cs
    else c :: addCargoFirst cs cid cargo

/-- The routes list after one processRoutes step: every route is ticked and
the completed ids are filtered out (src/lib/gameLogic.ts lines 128-152). -/
def stepRoutes (routes : List Route) : List Route :=
  (routes.map tickRoute).filter
    (fun r => !(((routes.filter routeCompletes).map Route.id).contains r.id))

/-- processRoutes (src/lib/gameLogic.ts lines 128-152): decrement every
in-transit route, deliver the cargo of routes reaching zero duration to the
destination colony (first id match, unclamped addition), and remove the
completed routes from the active list. -/
def processRoutes (s : GameState) : GameState :=
  { s with
    colonies := (s.routes.filter routeCompletes).foldl
      (fun cols r => addCargoFirst cols r.toId r.cargo) s.colonies,
    routes := stepRoutes s.routes }

/-- calculateFinances (src/lib/gameLogic.ts lines 157-184). -/
def calculateFinances (s : GameState) : GameState :=
  let ds := getDifficultySettings s.difficulty
  let income := s.colonies.foldl
    (fun acc c => acc + (c.population / 100) * (c.satisfaction / 100) * ds.incomeMultiplier) 0
  let expensesA := s.depots.foldl
    (fun acc d => acc + d.maintenanceCost * ds.maintenanceMultiplier) 0
  let expenses := s.routes.foldl
    (fun acc r => if r.status = RouteStatus.in_transit then acc + r.cost else acc) expensesA
  { s with
    income := jsRound income,
    expenses := jsRound expenses,
    budget := s.budget + jsRound income - jsRound expenses }

/-- updateSatisfaction (src/lib/gameLogic.ts lines 189-214).  Rational
division by zero yields 0 in this embedding; the game data has strictly
positive demand in every category, so the branch is never exercised. -/
def updateSatisfaction (s : GameState) : GameState :=
  let ds := getDifficultySettings s.difficulty
  { s with colonies := s.colonies.map (fun c =>
      let rAvg :=
        (c.inventory.life_support / (c.demand.life_support * 2) +
         c.inventory.fuel / (c.demand.fuel * 2) +
         c.inventory.materials / (c.demand.materials * 2) +
         c.inventory.equipment / (c.demand.equipment * 2)) / 4
      let target := min 100 (rAvg * 100)
      let change := (target - c.satisfaction) * ((3/10) * ds.satisfactionDecayMultiplier)
      { c with satisfaction := max 0 (min 100 (c.satisfaction + change)) }) }

/-- calculateScore (src/lib/gameLogic.ts lines 219-260). -/
def calculateScore (s : GameState) : GameState :=
  let totalDemand := s.colonies.foldl (fun acc c => acc + c.demand.total) 0
  let metDemand := s.colonies.foldl
    (fun acc c => acc + min c.inventory.total c.demand.total) 0
  let deliveryRate := if 0 < totalDemand then metDemand / totalDemand * 100 else 100
  let costEfficiency := if 0 < s.budget then min 100 (s.budget / 10000 * 100) else 0
  let avgSatisfaction :=
    s.colonies.foldl (fun acc c => acc + c.satisfaction) 0 / (s.colonies.length : ℚ)
  let totalScore := deliveryRate * (4/10) + costEfficiency * (3/10) + avgSatisfaction * (3/10)
  { s with score :=
      { deliveryRate := round1 deliveryRate,
        costEfficiency := round1 costEfficiency,
        avgDeliveryTime := 0,
        customerSatisfaction := round1 avgSatisfaction,
        totalScore := round1 totalScore } }

/-- addToHistory (src/lib/gameLogic.ts lines 381-401). -/
def addToHistory (s : GameState) : GameState :=
  let coloniesServed :=
    (s.colonies.filter (fun c => decide (c.demand.total * (1/2) ≤ c.inventory.total))).length
  let history := s.history ++
    [{ turn := s.currentTurn, budget := s.budget, totalScore := s.score.totalScore,
       deliveryRate := s.score.deliveryRate,
       customerSatisfaction := s.score.customerSatisfaction,
       coloniesServed := coloniesServed }]
  { s with history := if 120 < history.length then history.drop 1 else history }

/-- checkGameOver (src/lib/gameLogic.ts lines 406-450). -/
def checkGameOver (s : GameState) : GameState :=
  if s.isGameOver then s
  else if s.budget < -5000 then
    { s with isGameOver := true, gameOverReason := some GameOverReason.bankruptcy }
  else if 120 ≤ s.currentTurn then
    { s with isGameOver := true, gameOverReason := some GameOverReason.max_turns }
  else if (∀ c ∈ s.colonies, c.satisfaction < 20) ∧ 12 < s.currentTurn then
    { s with isGameOver := true, gameOverReason := some GameOverReason.all_colonies_lost }
  else if 60 ≤ s.currentTurn ∧ 95 ≤ s.score.totalScore ∧
      90 ≤ s.score.customerSatisfaction ∧ 5000 < s.budget then
    { s with isGameOver := true, gameOverReason := some GameOverReason.victory }
  else s

/-- advanceTurn (src/lib/gameLogic.ts lines 51-90): calendar advance, then
orbital update, inventory decay, route processing, finance settlement,
satisfaction update, score computation, history append, game-over check. -/
def advanceTurn (s : GameState) : GameState :=
  let s1 := { s with currentTurn := s.currentTurn + 1 }
  let s2 :=
    if 12 < s1.month + 1 then { s1 with month := 1, year := s1.year + 1 }
    else { s1 with month := s1.month + 1 }
  let s3 := { s2 with epoch := s2.epoch + 30 }
  checkGameOver (addToHistory (calculateScore (updateSatisfaction
    (calculateFinances (processRoutes (consumeInventory
      (updateOrbitalPositions s3)))))))

/-- Result record of calculateDistance (src/unnamed/part_003 lines
190-195).  The cost field is the output of Math.round and hence an
integer. -/
structure DistanceCalculation where
  distance : ℝ
  distanceKm : ℝ
  travelTime : ℝ
  cost : ℤ

/-- calculateDistance (src/unnamed/part_003 lines 205-241): planar
distance by the law of cosines on the circular orbits, converted to
kilometers, a travel-time estimate at 20000 km/h floored at 0.1 months,
and a transport cost of 50 plus 100 per AU, rounded. -/
noncomputable def calculateDistance (body1 body2 : CelestialBody) : DistanceCalculation :=
  let r1 : ℝ := (body1.orbitalRadius : ℝ)
  let r2 : ℝ := (body2.orbitalRadius : ℝ)
  let angle1 : ℝ := (body1.currentAngle : ℝ) * Real.pi / 180
  let angle2 : ℝ := (body2.currentAngle : ℝ) * Real.pi / 180
  let angleDiff := |angle1 - angle2|
  let distanceAU := Real.sqrt (r1 * r1 + r2 * r2 - 2 * r1 * r2 * Real.cos angleDiff)
  let distanceKm := distanceAU * 149597870.7
  let travelTimeHours := distanceKm / 20000
  let travelTimeDays := travelTimeHours / 24
  let travelTimeMonths := travelTimeDays / 30
  let cost : ℝ := 50 + distanceAU * 100
  { distance := distanceAU,
    distanceKm := distanceKm,
    travelTime := max 0.1 travelTimeMonths,
    cost := ⌊cost + 1/2⌋ }

/-- Newton iteration for the Kepler equation (src/unnamed/part_001 lines
56-69): state is the current estimate and the last correction, the fuel
argument is the remaining iteration budget (20 at the top level), and the
loop stops once the correction is within the 1e-6 tolerance. -/
noncomputable def keplerIter (e M : ℝ) : ℕ → ℝ → ℝ → ℝ
  | 0, E, _ => E
  | n + 1, E, delta =>
    if (1e-6 : ℝ) < |delta| then
      let d := (E - e * Real.sin E - M) / (1 - e * Real.cos E)
      keplerIter e M n (E - d) d
    else E

/-- solveKeplerEquation (src/unnamed/part_001 lines 56-69): initial guess
E = M, initial delta 1, at most 20 Newton steps. -/
noncomputable def solveKeplerEquation (M e : ℝ) : ℝ :=
  keplerIter e M 20 M 1

/-- JavaScript Math.atan2(y, x), realized as the complex argument of
x + y i (principal value in (-pi, pi]). -/
noncomputable def atan2 (y x : ℝ) : ℝ := Complex.arg ⟨x, y⟩

/-- Polar position on an elliptical orbit with a z offset, the result of
calculateEllipticalPosition. -/
structure EllipticalPosition where
  radius : ℝ
  angle : ℝ
  zOffset : ℝ

/-- calculateEllipticalPosition (src/unnamed/part_001 lines 14-50).  The
optional orbital elements default to 0 as in the source. -/
noncomputable def calculateEllipticalPosition
    (body : CelestialBody) (meanAnomaly : ℝ) : EllipticalPosition :=
  let a : ℝ := (body.orbitalRadius : ℝ)
  let e : ℝ := ((body.eccentricity.getD 0 : ℚ) : ℝ)
  let omega : ℝ := ((body.longitudeOfPerihelion.getD 0 : ℚ) : ℝ) * Real.pi / 180
  let i : ℝ := ((body.inclination.getD 0 : ℚ) : ℝ) * Real.pi / 180
  let M : ℝ := meanAnomaly * Real.pi / 180
  let E := solveKeplerEquation M e
  let nu := 2 * atan2 (Real.sqrt (1 + e) * Real.sin (E / 2))
      (Real.sqrt (1 - e) * Real.cos (E / 2))
  let r := a * (1 - e * Real.cos E)
  let theta := nu + omega
  let zOffset := Real.sin i * r * Real.sin nu
  { radius := r, angle := theta * 180 / Real.pi, zOffset := zOffset }

/-- calculateDistanceBetweenBodies (src/unnamed/part_001 lines 126-152):
the two elliptical positions are converted to Cartesian coordinates, the
planar distance is combined with the z-offset difference. -/
noncomputable def calculateDistanceBetweenBodies
    (body1 body2 : CelestialBody) (meanAnomaly1 meanAnomaly2 : ℝ) : ℝ :=
  let pos1 := calculateEllipticalPosition body1 meanAnomaly1
  let pos2 := calculateEllipticalPosition body2 meanAnomaly2
  let angle1 := pos1.angle * Real.pi / 180
  let angle2 := pos2.angle * Real.pi / 180
  let x1 := pos1.radius * Real.cos angle1
  let y1 := pos1.radius * Real.sin angle1
  let x2 := pos2.radius * Real.cos angle2
  let y2 := pos2.radius * Real.sin angle2
  let distance2D := Real.sqrt ((x2 - x1) ^ 2 + (y2 - y1) ^ 2)
  let dz := pos2.zOffset - pos1.zOffset
  Real.sqrt (distance2D ^ 2 + dz ^ 2)

/-- buildDepot (src/lib/gameLogic.ts lines 265-284), with the thrown
exceptions embedded as the error case of Except.  The source deep-clones
the input state, so a failed call leaves the caller's state untouched; in
this functional embedding that is inherent. -/
def buildDepot (s : GameState) (depot : Depot) : Except String GameState :=
  if s.budget < depot.constructionCost then Except.error "insufficient budget"
  else if s.depots.any (fun d => d.id == depot.id) then Except.error "site already has a depot"
  else Except.ok
    { s with depots := s.depots ++ [depot], budget := s.budget - depot.constructionCost }

/-- createRoute (src/lib/gameLogic.ts lines 289-321).  The generated route
id (Date.now and Math.random in the source) is an environment input and is
passed as the newId parameter; nothing downstream reads anything but its
equality with other ids. -/
noncomputable def createRoute (s : GameState) (fromId toId : String)
    (cargo : Resources) (newId : String) : Except String GameState :=
  match s.depots.find? (fun d => d.id == fromId),
      s.colonies.find? (fun c => c.id == toId) with
  | some depot, some colony =>
    let distanceCalc := calculateDistance depot.toCelestialBody colony.toCelestialBody
    Except.ok { s with routes := s.routes ++
      [{ id := newId, fromId := fromId, toId := toId, cargo := cargo,
         cost := (distanceCalc.cost : ℚ), duration := ⌈distanceCalc.travelTime⌉,
         status := RouteStatus.in_transit }] }
  | _, _ => Except.error "depot or colony not found"

/-!
Facility-location optimizer (src/unnamed/part_003 lines 246-407).

greedyFacilityLocation and pMedianOptimization first compute the distance
matrix (candidate site times colony) with calculateDistanceMatrix and from
then on read nothing of the geometry but that matrix; they are embedded
here over an abstract matrix dm (site index to colony index to distance)
together with the colony count and the candidate-site count, so every
theorem below quantifies over all matrices and in particular covers the
matrix produced by calculateDistanceMatrix.  The JavaScript maxDistance
(which may be Infinity) is an Option, none standing for Infinity; the
comparison distance <= maxDistance is then always true, exactly as for the
IEEE Infinity.
-/

/-- The coverage test distanceMatrix[siteIdx][colonyIdx] <= maxDistance,
with none playing the role of Infinity. -/
def withinMaxDistance (d : ℚ) (maxDistance : Option ℚ) : Bool :=
  match maxDistance with
  | none => true
  | some m => decide (d ≤ m)

/-- The inner count of greedyFacilityLocation: how many not-yet-covered
colonies the candidate site covers within maxDistance. -/
def newlyCoveredCount (dm : ℕ → ℕ → ℚ) (maxDistance : Option ℚ)
    (nColonies : ℕ) (covered : List ℕ) (siteIdx : ℕ) : ℕ :=
  ((List.range nColonies).filter
    (fun colonyIdx => !covered.contains colonyIdx &&
      withinMaxDistance (dm siteIdx colonyIdx) maxDistance)).length

/-- The candidate-selection scan of greedyFacilityLocation (src/unnamed/
part_003 lines 285-304): bestSite starts at -1 (none here) and
maxNewlyCovered at 0, and a candidate replaces the running best only when
its newly-covered count is strictly greater. -/
def bestCandidate (dm : ℕ → ℕ → ℚ) (maxDistance : Option ℚ)
    (nColonies nSites : ℕ) (selected covered : List ℕ) : Option ℕ × ℕ :=
  (List.range nSites).foldl
    (fun acc siteIdx =>
      if selected.contains siteIdx then acc
      else
        let nc := newlyCoveredCount dm maxDistance nColonies covered siteIdx
        if acc.2 < nc then (some siteIdx, nc) else acc)
    (none, 0)

/-- The covered set after selecting bestSite, kept as the subset of
List.range nColonies so that its length is the cardinality of the
JavaScript Set. -/
def updateCovered (dm : ℕ → ℕ → ℚ) (maxDistance : Option ℚ)
    (nColonies : ℕ) (covered : List ℕ) (bestSite : ℕ) : List ℕ :=
  (List.range nColonies).filter
    (fun colonyIdx => covered.contains colonyIdx ||
      withinMaxDistance (dm bestSite colonyIdx) maxDistance)

/-- The selection loop of greedyFacilityLocation; the fuel argument is the
number of remaining iterations (maxDepots at the top level).  The loop
stops when no candidate adds coverage or when every colony is covered. -/
def greedyLoop (dm : ℕ → ℕ → ℚ) (maxDistance : Option ℚ)
    (nColonies nSites : ℕ) : ℕ → List ℕ → List ℕ → List ℕ
  | 0, selected, _ => selected
  | fuel + 1, selected, covered =>
    match bestCandidate dm maxDistance nColonies nSites selected covered with
    | (none, _) => selected
    | (some bestSite, maxNewlyCovered) =>
      if maxNewlyCovered = 0 then selected
      else
        let selected1 := selected ++ [bestSite]
        let covered1 := updateCovered dm maxDistance nColonies covered bestSite
        if covered1.length = nColonies then selected1
        else greedyLoop dm maxDistance nColonies nSites fuel selected1 covered1

/-- greedyFacilityLocation (src/unnamed/part_003 lines 274-323) over the
abstract distance matrix. -/
def greedyFacilityLocation (dm : ℕ → ℕ → ℚ) (nColonies nSites maxDepots : ℕ)
    (maxDistance : Option ℚ) : List ℕ :=
  greedyLoop dm maxDistance nColonies nSites maxDepots [] []

/-- The per-colony minimum over the selected sites inside
calculateTotalCost: minDistance starts at Infinity (top) and is lowered by
strict comparisons. -/
def nearestDistance (dm : ℕ → ℕ → ℚ) (selectedSites : List ℕ)
    (colonyIdx : ℕ) : WithTop ℚ :=
  selectedSites.foldl
    (fun acc siteIdx =>
      if ((dm siteIdx colonyIdx : ℚ) : WithTop ℚ) < acc
      then ((dm siteIdx colonyIdx : ℚ) : WithTop ℚ) else acc)
    ⊤

/-- calculateTotalCost (src/unnamed/part_003 lines 378-407): the sum over
colonies of the nearest selected-site distance times the colony's total
monthly demand. -/
def calculateTotalCost (dm : ℕ → ℕ → ℚ) (selectedSites : List ℕ)
    (colonies : List Colony) : WithTop ℚ :=
  colonies.enum.foldl
    (fun acc p => acc + nearestDistance dm selectedSites p.1 * ((p.2.demand.total : ℚ) : WithTop ℚ))
    0

/-- One candidate substitution attempt of pMedianOptimization (src/unnamed/
part_003 lines 351-365): skip already-selected sites, and accept the
substitution immediately when it strictly lowers the total cost.  The
state is the running solution, its cost, and the improved flag. -/
def swapAttempt (dm : ℕ → ℕ → ℚ) (colonies : List Colony) (i newSite : ℕ)
    (st : List ℕ × WithTop ℚ × Bool) : List ℕ × WithTop ℚ × Bool :=
  if st.1.contains newSite then st
  else
    let testSolution := st.1.set i newSite
    let testCost := calculateTotalCost dm testSolution colonies
    if testCost < st.2.1 then (testSolution, testCost, true) else st

/-- One full pass of pMedianOptimization over every solution position and
every candidate site. -/
def swapPass (dm : ℕ → ℕ → ℚ) (colonies : List Colony) (nSites : ℕ)
    (st : List ℕ × WithTop ℚ × Bool) : List ℕ × WithTop ℚ × Bool :=
  (List.range st.1.length).foldl
    (fun st1 i => (List.range nSites).foldl
      (fun st2 newSite => swapAttempt dm colonies i newSite st2) st1)
    st

/-- The iteration loop of pMedianOptimization: up to maxIterations passes,
stopping after the first pass that accepts no substitution. -/
def pMedianLoop (dm : ℕ → ℕ → ℚ) (colonies : List Colony) (nSites : ℕ) :
    ℕ → List ℕ × WithTop ℚ → List ℕ × WithTop ℚ
  | 0, st => st
  | fuel + 1, st =>
    let r := swapPass dm colonies nSites (st.1, st.2, false)
    if r.2.2 then pMedianLoop dm colonies nSites fuel (r.1, r.2.1) else (r.1, r.2.1)

/-- pMedianOptimization (src/unnamed/part_003 lines 335-373): greedy seed
with maxDistance = Infinity, then first-improvement swap refinement. -/
def pMedianOptimization (dm : ℕ → ℕ → ℚ) (colonies : List Colony)
    (nSites p maxIterations : ℕ) : List ℕ :=
  let currentSolution := greedyFacilityLocation dm colonies.length nSites p none
  let currentCost := calculateTotalCost dm currentSolution colonies
  (pMedianLoop dm colonies nSites maxIterations (currentSolution, currentCost)).1

/-! Concrete sample values used by witness and counterexample theorems. -/

def sampleBody (i : String) : CelestialBody :=
  { id := i, name := i, orbitalRadius := 1, currentAngle := 0, orbitalPeriod := 365,
    eccentricity := none, longitudeOfPerihelion := none, inclination := none }

def sampleColony : Colony :=
  { toCelestialBody := sampleBody "moon", population := 1000,
    demand := ⟨1, 1, 1, 1⟩, inventory := ⟨2, 2, 2, 2⟩, satisfaction := 50 }

def sampleDepot : Depot :=
  { toCelestialBody := sampleBody "mars-site", constructionCost := 50,
    maintenanceCost := 10, capacity := 100, currentStock := 0 }

def baseScore : Score :=
  { deliveryRate := 100, costEfficiency := 100, avgDeliveryTime := 0,
    customerSatisfaction := 70, totalScore := 85 }

def baseState : GameState :=
  { currentTurn := 0, year := 2150, month := 1, epoch := 0, budget := 100,
    income := 0, expenses := 0, colonies := [sampleColony], depots := [],
    routes := [], score := baseScore, isGameOver := false, gameOverReason := none,
    history := [], difficulty := Difficulty.normal }

def sampleRoute : Route :=
  { id := "r1", fromId := "mars-site", toId := "moon", cargo := ⟨5, 0, 0, 0⟩,
    cost := 7, duration := 3, status := RouteStatus.in_transit }

def wonState : GameState :=
  { baseState with isGameOver := true, gameOverReason := some GameOverReason.victory }

def bankruptState : GameState := { baseState with budget := -6000 }

def builtState : GameState :=
  { baseState with
    depots := baseState.depots ++ [sampleDepot],
    budget := baseState.budget - sampleDepot.constructionCost }

instance : DecidableEq (Except String GameState) := fun a b =>
  match a, b with
  | Except.ok x, Except.ok y =>
    if h : x = y then isTrue (by rw [h]) else isFalse (by simp [h])
  | Except.error e, Except.error f =>
    if h : e = f then isTrue (by rw [h]) else isFalse (by simp [h])
  | Except.ok _, Except.error _ => isFalse (by simp)
  | Except.error _, Except.ok _ => isFalse (by simp)

/-- Inventory of the first colony carrying the given id (the colony that
state.colonies.find would locate), zero when no colony matches. -/
def invOfCols (cols : List Colony) (cid : String) : Resources :=
  match cols.find? (fun c => c.id == cid) with
  | some c => c.inventory
  | none => Resources.zero

/-- Summed cargo of the routes destined for the given colony id. -/
def sumCargoTo : List Route → String → Resources
  | [], _ => Resources.zero
  | r :: rs, cid =>
    if r.toId = cid then r.cargo.add (sumCargoTo rs cid) else sumCargoTo rs cid

/-- The sample state carrying one in-transit route of duration 3. -/
def routeState : GameState := { baseState with routes := [sampleRoute] }

/-- A colony holding a negative life-support inventory and otherwise
ordinary values; satisfaction 50 lies inside [0, 100]. -/
def negInvColony : Colony :=
  { toCelestialBody := sampleBody "neg", population := 1000,
    demand := ⟨1, 0, 0, 0⟩, inventory := ⟨-100, 0, 0, 0⟩, satisfaction := 50 }

def negInvState : GameState := { baseState with colonies := [negInvColony] }

/-- Resource records with all four categories non-negative. -/
def Resources.nonneg (r : Resources) : Prop :=
  0 ≤ r.life_support ∧ 0 ≤ r.fuel ∧ 0 ≤ r.materials ∧ 0 ≤ r.equipment

instance (r : Resources) : Decidable r.nonneg := by
  unfold Resources.nonneg; infer_instance

end SolarLogistics

namespace SolarLogistics

/-- C2: once a state is game over, checkGameOver (the last step of
advanceTurn) leaves it completely unchanged, so the reason is never
overwritten; for a live state the four terminal conditions are evaluated
in the exact source order (bankruptcy, max turns, all colonies lost,
victory), the first match setting the flag and reason, and a state
matching none of them is unchanged. -/
theorem claim2_checkGameOver_order (s : GameState) :
    (s.isGameOver = true → checkGameOver s = s) ∧
    (s.budget < -5000 → s.isGameOver = false →
      checkGameOver s =
        { s with isGameOver := true, gameOverReason := some GameOverReason.bankruptcy }) ∧
    (¬ s.budget < -5000 → 120 ≤ s.currentTurn → s.isGameOver = false →
      checkGameOver s =
        { s with isGameOver := true, gameOverReason := some GameOverReason.max_turns }) ∧
    (¬ s.budget < -5000 → ¬ 120 ≤ s.currentTurn →
      (∀ c ∈ s.colonies, c.satisfaction < 20) → 12 < s.currentTurn → s.isGameOver = false →
      checkGameOver s =
        { s with isGameOver := true, gameOverReason := some GameOverReason.all_colonies_lost }) ∧
    (¬ s.budget < -5000 → ¬ 120 ≤ s.currentTurn →
      ¬ ((∀ c ∈ s.colonies, c.satisfaction < 20) ∧ 12 < s.currentTurn) →
      60 ≤ s.currentTurn → 95 ≤ s.score.totalScore → 90 ≤ s.score.customerSatisfaction →
      5000 < s.budget → s.isGameOver = false →
      checkGameOver s =
        { s with isGameOver := true, gameOverReason := some GameOverReason.victory }) ∧
    (¬ s.budget < -5000 → ¬ 120 ≤ s.currentTurn →
      ¬ ((∀ c ∈ s.colonies, c.satisfaction < 20) ∧ 12 < s.currentTurn) →
      ¬ (60 ≤ s.currentTurn ∧ 95 ≤ s.score.totalScore ∧
         90 ≤ s.score.customerSatisfaction ∧ 5000 < s.budget) →
      checkGameOver s = s) := by
  refine ⟨?_, ?_, ?_, ?_, ?_, ?_⟩
  · intro h; simp [checkGameOver, h]
  · intro h1 h2
    unfold checkGameOver
    rw [if_neg (by simp [h2]), if_pos h1]
  · intro h1 h2 h3
    unfold checkGameOver
    rw [if_neg (by simp [h3]), if_neg h1, if_pos h2]
  · intro h1 h2 h3 h4 h5
    unfold checkGameOver
    rw [if_neg (by simp [h5]), if_neg h1, if_neg h2, if_pos ⟨h3, h4⟩]
  · intro h1 h2 h3 h4 h5 h6 h7 h8
    unfold checkGameOver
    rw [if_neg (by simp [h8]), if_neg h1, if_neg h2, if_neg h3, if_pos ⟨h4, h5, h6, h7⟩]
  · intro h1 h2 h3 h4
    rcases Bool.eq_false_or_eq_true s.isGameOver with h0 | h0
    · simp [checkGameOver, h0]
    · unfold checkGameOver
      rw [if_neg (by simp [h0]), if_neg h1, if_neg h2, if_neg h3, if_neg h4]

/-- Witness for C2: a state already won stays exactly as it is, and a
freshly bankrupt live state gets the bankruptcy reason. -/
theorem claim2_checkGameOver_order_witness :
    (checkGameOver wonState = wonState) ∧
    (checkGameOver bankruptState =
      { bankruptState with
        isGameOver := true,
        gameOverReason := some GameOverReason.bankruptcy }) :=
  ⟨(claim2_checkGameOver_order wonState).1 rfl,
   (claim2_checkGameOver_order bankruptState).2.1 (by norm_num [bankruptState, baseState]) rfl⟩

/-- C5: buildDepot succeeds exactly when the budget covers the
construction cost and no depot with the same id exists, and on success the
new state differs from the old only by the appended depot and the reduced
budget; createRoute succeeds exactly when the depot id and the colony id
both exist.  In this functional embedding a failing call returns only an
error value, so the prior state is untouched by construction (the source
achieves the same by throwing before mutating anything the caller sees). -/
theorem claim5_buildDepot_createRoute_validation (s : GameState) (depot : Depot)
    (fromId toId newId : String) (cargo : Resources) :
    ((∃ s2, buildDepot s depot = Except.ok s2) ↔
      ¬ s.budget < depot.constructionCost ∧ ¬ ∃ d ∈ s.depots, d.id = depot.id) ∧
    (∀ s2, buildDepot s depot = Except.ok s2 →
      s2 = { s with
             depots := s.depots ++ [depot],
             budget := s.budget - depot.constructionCost }) ∧
    ((∃ s2, createRoute s fromId toId cargo newId = Except.ok s2) ↔
      (∃ d ∈ s.depots, d.id = fromId) ∧ ∃ c ∈ s.colonies, c.id = toId) := by
  refine ⟨?_, ?_, ?_⟩
  · unfold buildDepot
    split_ifs with h1 h2
    · constructor
      · rintro ⟨s2, h⟩; cases h
      · rintro ⟨ha, -⟩; exact absurd h1 ha
    · constructor
      · rintro ⟨s2, h⟩; cases h
      · rintro ⟨-, hb⟩
        rw [List.any_eq_true] at h2
        exact absurd (by rcases h2 with ⟨d, hd, he⟩; exact ⟨d, hd, by simpa using he⟩) hb
    · constructor
      · intro _
        refine ⟨h1, fun hb => ?_⟩
        rcases hb with ⟨d, hd, he⟩
        exact h2 (List.any_eq_true.mpr ⟨d, hd, by simpa using he⟩)
      · intro _; exact ⟨_, rfl⟩
  · intro s2 h
    unfold buildDepot at h
    split_ifs at h
    cases h
    rfl
  · unfold createRoute
    rcases hd : s.depots.find? (fun d => d.id == fromId) with - | d <;>
      rcases hc : s.colonies.find? (fun c => c.id == toId) with - | c
    · simp only [hd, hc]
      constructor
      · rintro ⟨s2, h⟩; cases h
      · rintro ⟨⟨d, hdm, hde⟩, -⟩
        have := List.find?_eq_none.mp hd d hdm
        simp [hde] at this
    · simp only [hd, hc]
      constructor
      · rintro ⟨s2, h⟩; cases h
      · rintro ⟨⟨d, hdm, hde⟩, -⟩
        have := List.find?_eq_none.mp hd d hdm
        simp [hde] at this
    · simp only [hd, hc]
      constructor
      · rintro ⟨s2, h⟩; cases h
      · rintro ⟨-, c, hcm, hce⟩
        have := List.find?_eq_none.mp hc c hcm
        simp [hce] at this
    · simp only [hd, hc]
      constructor
      · intro _
        constructor
        · exact ⟨d, List.mem_of_find?_eq_some hd, by
            have := List.find?_some hd; simpa using this⟩
        · exact ⟨c, List.mem_of_find?_eq_some hc, by
            have := List.find?_some hc; simpa using this⟩
      · intro _; exact ⟨_, rfl⟩

end SolarLogistics

namespace SolarLogistics

/-- Witness for C5: on the sample state (budget 100) building the sample
depot (cost 50) succeeds and yields exactly the state with the depot
appended and the budget reduced to 50. -/
theorem claim5_buildDepot_createRoute_validation_witness :
    builtState =
      { baseState with
        depots := baseState.depots ++ [sampleDepot],
        budget := baseState.budget - sampleDepot.constructionCost } :=
  (claim5_buildDepot_createRoute_validation baseState sampleDepot "a" "b" "c"
    Resources.zero).2.1 builtState (by rfl)

/-- C8: the inventory-decay step of advanceTurn sends every colony's
inventory in each of the four categories to max(0, inventory - demand),
which is in particular non-negative; a deficit is discarded rather than
carried forward. -/
theorem claim8_consumeInventory_clamped (s : GameState) (i : ℕ)
    (hi : i < s.colonies.length)
    (_hinv : ∀ c ∈ s.colonies, c.inventory.nonneg)
    (_hdem : ∀ c ∈ s.colonies, c.demand.nonneg) :
    ∃ hj : i < (consumeInventory s).colonies.length,
      (((consumeInventory s).colonies.get ⟨i, hj⟩).inventory.life_support =
          max 0 ((s.colonies.get ⟨i, hi⟩).inventory.life_support -
            (s.colonies.get ⟨i, hi⟩).demand.life_support)) ∧
      (((consumeInventory s).colonies.get ⟨i, hj⟩).inventory.fuel =
          max 0 ((s.colonies.get ⟨i, hi⟩).inventory.fuel -
            (s.colonies.get ⟨i, hi⟩).demand.fuel)) ∧
      (((consumeInventory s).colonies.get ⟨i, hj⟩).inventory.materials =
          max 0 ((s.colonies.get ⟨i, hi⟩).inventory.materials -
            (s.colonies.get ⟨i, hi⟩).demand.materials)) ∧
      (((consumeInventory s).colonies.get ⟨i, hj⟩).inventory.equipment =
          max 0 ((s.colonies.get ⟨i, hi⟩).inventory.equipment -
            (s.colonies.get ⟨i, hi⟩).demand.equipment)) ∧
      ((consumeInventory s).colonies.get ⟨i, hj⟩).inventory.nonneg := by
  have hj : i < (consumeInventory s).colonies.length := by
    simpa [consumeInventory] using hi
  refine ⟨hj, ?_⟩
  have hget : (consumeInventory s).colonies.get ⟨i, hj⟩ =
      (fun c => { c with inventory := consumeOne c.inventory c.demand })
        (s.colonies.get ⟨i, hi⟩) := by
    simp [consumeInventory]
  rw [hget]
  refine ⟨rfl, rfl, rfl, rfl, ?_, ?_, ?_, ?_⟩ <;> exact le_max_left 0 _

/-- Witness for C8: the sample colony with inventory 2 and demand 1 in
every category ends the decay step with inventory 1 everywhere. -/
theorem claim8_consumeInventory_clamped_witness :
    ∃ hj : 0 < (consumeInventory baseState).colonies.length,
      (((consumeInventory baseState).colonies.get ⟨0, hj⟩).inventory.life_support =
          max 0 ((baseState.colonies.get ⟨0, by decide⟩).inventory.life_support -
            (baseState.colonies.get ⟨0, by decide⟩).demand.life_support)) ∧
      (((consumeInventory baseState).colonies.get ⟨0, hj⟩).inventory.fuel =
          max 0 ((baseState.colonies.get ⟨0, by decide⟩).inventory.fuel -
            (baseState.colonies.get ⟨0, by decide⟩).demand.fuel)) ∧
      (((consumeInventory baseState).colonies.get ⟨0, hj⟩).inventory.materials =
          max 0 ((baseState.colonies.get ⟨0, by decide⟩).inventory.materials -
            (baseState.colonies.get ⟨0, by decide⟩).demand.materials)) ∧
      (((consumeInventory baseState).colonies.get ⟨0, hj⟩).inventory.equipment =
          max 0 ((baseState.colonies.get ⟨0, by decide⟩).inventory.equipment -
            (baseState.colonies.get ⟨0, by decide⟩).demand.equipment)) ∧
      ((consumeInventory baseState).colonies.get ⟨0, hj⟩).inventory.nonneg :=
  claim8_consumeInventory_clamped baseState 0 (by decide) (by decide) (by decide)

end SolarLogistics

namespace SolarLogistics

/-- C9: both distance models are symmetric.  calculateDistance returns
equal results in all four fields when its arguments are swapped, and the
elliptical calculateDistanceBetweenBodies is symmetric when the bodies are
swapped together with their mean anomalies. -/
theorem claim9_distance_symmetric (body1 body2 : CelestialBody) :
    calculateDistance body1 body2 = calculateDistance body2 body1 ∧
    ∀ meanAnomaly1 meanAnomaly2 : ℝ,
      calculateDistanceBetweenBodies body1 body2 meanAnomaly1 meanAnomaly2 =
        calculateDistanceBetweenBodies body2 body1 meanAnomaly2 meanAnomaly1 := by
  constructor
  · have key : Real.sqrt
        ((body1.orbitalRadius : ℝ) * (body1.orbitalRadius : ℝ) +
          (body2.orbitalRadius : ℝ) * (body2.orbitalRadius : ℝ) -
          2 * (body1.orbitalRadius : ℝ) * (body2.orbitalRadius : ℝ) *
            Real.cos |(body1.currentAngle : ℝ) * Real.pi / 180 -
              (body2.currentAngle : ℝ) * Real.pi / 180|) =
        Real.sqrt
        ((body2.orbitalRadius : ℝ) * (body2.orbitalRadius : ℝ) +
          (body1.orbitalRadius : ℝ) * (body1.orbitalRadius : ℝ) -
          2 * (body2.orbitalRadius : ℝ) * (body1.orbitalRadius : ℝ) *
            Real.cos |(body2.currentAngle : ℝ) * Real.pi / 180 -
              (body1.currentAngle : ℝ) * Real.pi / 180|) := by
      rw [abs_sub_comm]
      ring_nf
    simp only [calculateDistance, key]
  · intro meanAnomaly1 meanAnomaly2
    unfold calculateDistanceBetweenBodies
    simp only []
    set p1 := calculateEllipticalPosition body1 meanAnomaly1 with hp1
    set p2 := calculateEllipticalPosition body2 meanAnomaly2 with hp2
    have hs1 : (0 : ℝ) ≤
        (p2.radius * Real.cos (p2.angle * Real.pi / 180) -
          p1.radius * Real.cos (p1.angle * Real.pi / 180)) ^ 2 +
        (p2.radius * Real.sin (p2.angle * Real.pi / 180) -
          p1.radius * Real.sin (p1.angle * Real.pi / 180)) ^ 2 := by positivity
    have hs2 : (0 : ℝ) ≤
        (p1.radius * Real.cos (p1.angle * Real.pi / 180) -
          p2.radius * Real.cos (p2.angle * Real.pi / 180)) ^ 2 +
        (p1.radius * Real.sin (p1.angle * Real.pi / 180) -
          p2.radius * Real.sin (p2.angle * Real.pi / 180)) ^ 2 := by positivity
    rw [Real.sq_sqrt hs1, Real.sq_sqrt hs2]
    congr 1
    ring

end SolarLogistics

namespace SolarLogistics

/-- One substitution attempt keeps the recorded cost equal to the true
cost of the running solution and never increases it. -/
theorem swapAttempt_invariant (dm : ℕ → ℕ → ℚ) (colonies : List Colony)
    (i newSite : ℕ) (st : List ℕ × WithTop ℚ × Bool)
    (h : st.2.1 = calculateTotalCost dm st.1 colonies) :
    (swapAttempt dm colonies i newSite st).2.1 =
      calculateTotalCost dm (swapAttempt dm colonies i newSite st).1 colonies ∧
    (swapAttempt dm colonies i newSite st).2.1 ≤ st.2.1 := by
  simp only [swapAttempt]
  split_ifs with h1 h2
  · exact ⟨h, le_refl _⟩
  · exact ⟨rfl, le_of_lt h2⟩
  · exact ⟨h, le_refl _⟩

/-- Folding any cost-preserving, cost-non-increasing step keeps the
invariant and never increases the cost. -/
theorem foldl_cost_invariant {σ α : Type} (cost : σ → WithTop ℚ) (inv : σ → Prop)
    (g : σ → α → σ) (hg : ∀ st x, inv st → inv (g st x) ∧ cost (g st x) ≤ cost st) :
    ∀ (l : List α) (st : σ), inv st →
      inv (l.foldl g st) ∧ cost (l.foldl g st) ≤ cost st := by
  intro l
  induction l with
  | nil => intro st h; exact ⟨h, le_refl _⟩
  | cons a t ih =>
    intro st h
    have h1 := hg st a h
    have h2 := ih (g st a) h1.1
    exact ⟨h2.1, le_trans h2.2 h1.2⟩

/-- A full substitution pass keeps the recorded cost equal to the true
cost and never increases it. -/
theorem swapPass_invariant (dm : ℕ → ℕ → ℚ) (colonies : List Colony) (nSites : ℕ)
    (st : List ℕ × WithTop ℚ × Bool)
    (h : st.2.1 = calculateTotalCost dm st.1 colonies) :
    (swapPass dm colonies nSites st).2.1 =
      calculateTotalCost dm (swapPass dm colonies nSites st).1 colonies ∧
    (swapPass dm colonies nSites st).2.1 ≤ st.2.1 := by
  unfold swapPass
  refine foldl_cost_invariant (fun st => st.2.1)
    (fun st => st.2.1 = calculateTotalCost dm st.1 colonies) _ ?_ _ st h
  intro st1 i h1
  exact foldl_cost_invariant (fun st => st.2.1)
    (fun st => st.2.1 = calculateTotalCost dm st.1 colonies) _
    (fun st2 ns h2 => swapAttempt_invariant dm colonies i ns st2 h2) _ st1 h1

/-- The whole refinement loop keeps the invariant and never increases the
cost. -/
theorem pMedianLoop_invariant (dm : ℕ → ℕ → ℚ) (colonies : List Colony) (nSites : ℕ) :
    ∀ (fuel : ℕ) (st : List ℕ × WithTop ℚ),
      st.2 = calculateTotalCost dm st.1 colonies →
      (pMedianLoop dm colonies nSites fuel st).2 =
        calculateTotalCost dm (pMedianLoop dm colonies nSites fuel st).1 colonies ∧
      (pMedianLoop dm colonies nSites fuel st).2 ≤ st.2 := by
  intro fuel
  induction fuel with
  | zero => intro st h; exact ⟨h, le_refl _⟩
  | succ n ih =>
    intro st h
    have hpass := swapPass_invariant dm colonies nSites (st.1, st.2, false) h
    simp only [pMedianLoop]
    split_ifs with himp
    · have hstep := ih ((swapPass dm colonies nSites (st.1, st.2, false)).1,
        (swapPass dm colonies nSites (st.1, st.2, false)).2.1) hpass.1
      exact ⟨hstep.1, le_trans hstep.2 hpass.2⟩
    · exact ⟨hpass.1, hpass.2⟩

/-- C6: the total cost (per colony, nearest selected-site distance times
the colony's total monthly demand) of the solution pMedianOptimization
returns is never worse than that of its greedy-seeded initial solution:
every accepted first-improvement swap strictly lowers the running cost. -/
theorem claim6_pMedian_cost_monotone (dm : ℕ → ℕ → ℚ) (colonies : List Colony)
    (nSites p maxIterations : ℕ) :
    calculateTotalCost dm (pMedianOptimization dm colonies nSites p maxIterations) colonies ≤
      calculateTotalCost dm
        (greedyFacilityLocation dm colonies.length nSites p none) colonies := by
  have h := pMedianLoop_invariant dm colonies nSites maxIterations
    (greedyFacilityLocation dm colonies.length nSites p none,
     calculateTotalCost dm (greedyFacilityLocation dm colonies.length nSites p none) colonies)
    rfl
  unfold pMedianOptimization
  calc calculateTotalCost dm
        (pMedianLoop dm colonies nSites maxIterations
          (greedyFacilityLocation dm colonies.length nSites p none,
           calculateTotalCost dm
             (greedyFacilityLocation dm colonies.length nSites p none) colonies)).1 colonies
      = (pMedianLoop dm colonies nSites maxIterations
          (greedyFacilityLocation dm colonies.length nSites p none,
           calculateTotalCost dm
             (greedyFacilityLocation dm colonies.length nSites p none) colonies)).2 := h.1.symm
    _ ≤ _ := h.2

end SolarLogistics

namespace SolarLogistics

/-- With maxDistance = Infinity and nothing covered yet, every candidate
site newly covers every colony. -/
theorem newlyCoveredCount_infinite (dm : ℕ → ℕ → ℚ) (nCol s : ℕ) :
    newlyCoveredCount dm none nCol [] s = nCol := by
  simp [newlyCoveredCount, withinMaxDistance]

/-- Once the running best already covers all colonies, the rest of the
candidate scan changes nothing. -/
theorem bestCandidate_fold_absorb (dm : ℕ → ℕ → ℚ) (nCol : ℕ)
    (l : List ℕ) (b : Option ℕ) :
    l.foldl
      (fun acc siteIdx =>
        if ([] : List ℕ).contains siteIdx then acc
        else
          let nc := newlyCoveredCount dm none nCol [] siteIdx
          if acc.2 < nc then (some siteIdx, nc) else acc)
      (b, nCol) = (b, nCol) := by
  induction l with
  | nil => rfl
  | cons a t ih => simpa [newlyCoveredCount_infinite] using ih

/-- At unconstrained distance the very first candidate scan picks site 0
covering all colonies. -/
theorem bestCandidate_infinite (dm : ℕ → ℕ → ℚ) (nCol nSites : ℕ)
    (h1 : 0 < nCol) (h2 : 0 < nSites) :
    bestCandidate dm none nCol nSites [] [] = (some 0, nCol) := by
  obtain ⟨k, rfl⟩ : ∃ k, nSites = k + 1 := ⟨nSites - 1, by omega⟩
  unfold bestCandidate
  rw [List.range_succ_eq_map, List.foldl_cons]
  have hstep :
      (if ([] : List ℕ).contains 0 then ((none : Option ℕ), 0)
       else
         let nc := newlyCoveredCount dm none nCol [] 0
         if ((none : Option ℕ), 0).2 < nc then (some 0, nc) else (none, 0)) =
      (some 0, nCol) := by
    simp [newlyCoveredCount_infinite, h1]
  rw [hstep]
  exact bestCandidate_fold_absorb dm nCol _ (some 0)

/-- At unconstrained distance the first selection covers everything. -/
theorem updateCovered_infinite (dm : ℕ → ℕ → ℚ) (nCol b : ℕ) :
    updateCovered dm none nCol [] b = List.range nCol := by
  simp [updateCovered, withinMaxDistance]

/-- The greedy seed of pMedianOptimization degenerates: with
maxDistance = Infinity the first selected site covers every colony, the
all-covered early exit fires, and the returned seed is exactly the single
index 0 no matter how large maxDepots is. -/
theorem greedySeed_infinite (dm : ℕ → ℕ → ℚ) (nCol nSites p : ℕ)
    (h1 : 0 < nCol) (h2 : 0 < nSites) (hp : 1 ≤ p) :
    greedyFacilityLocation dm nCol nSites p none = [0] := by
  obtain ⟨q, rfl⟩ : ∃ q, p = q + 1 := ⟨p - 1, by omega⟩
  unfold greedyFacilityLocation greedyLoop
  rw [bestCandidate_infinite dm nCol nSites h1 h2]
  simp only [updateCovered_infinite, List.length_range]
  have : ¬ nCol = 0 := by omega
  simp [this]

/-- Substitution attempts preserve the solution length. -/
theorem swapAttempt_length (dm : ℕ → ℕ → ℚ) (colonies : List Colony)
    (i newSite : ℕ) (st : List ℕ × WithTop ℚ × Bool) :
    (swapAttempt dm colonies i newSite st).1.length = st.1.length := by
  simp only [swapAttempt]
  split_ifs <;> simp

/-- Folding a step that preserves a predicate preserves it. -/
theorem foldl_preserves {σ α : Type} (P : σ → Prop) (g : σ → α → σ)
    (hg : ∀ st x, P st → P (g st x)) :
    ∀ (l : List α) (st : σ), P st → P (l.foldl g st) := by
  intro l
  induction l with
  | nil => exact fun st h => h
  | cons a t ih => exact fun st h => ih (g st a) (hg st a h)

/-- A substitution pass preserves the solution length. -/
theorem swapPass_length (dm : ℕ → ℕ → ℚ) (colonies : List Colony) (nSites : ℕ)
    (st : List ℕ × WithTop ℚ × Bool) :
    (swapPass dm colonies nSites st).1.length = st.1.length := by
  unfold swapPass
  refine foldl_preserves (fun st2 => st2.1.length = st.1.length) _ ?_ _ st rfl
  intro st1 i h1
  refine foldl_preserves (fun st2 => st2.1.length = st.1.length) _ ?_ _ st1 h1
  intro st2 ns h2
  rw [swapAttempt_length]
  exact h2

/-- The whole refinement loop preserves the solution length. -/
theorem pMedianLoop_length (dm : ℕ → ℕ → ℚ) (colonies : List Colony) (nSites : ℕ) :
    ∀ (fuel : ℕ) (st : List ℕ × WithTop ℚ),
      (pMedianLoop dm colonies nSites fuel st).1.length = st.1.length := by
  intro fuel
  induction fuel with
  | zero => intro st; rfl
  | succ n ih =>
    intro st
    simp only [pMedianLoop]
    split_ifs with himp
    · rw [ih ((swapPass dm colonies nSites (st.1, st.2, false)).1,
        (swapPass dm colonies nSites (st.1, st.2, false)).2.1)]
      exact swapPass_length dm colonies nSites (st.1, st.2, false)
    · exact swapPass_length dm colonies nSites (st.1, st.2, false)

/-- C1 counterexample: with one colony, two candidate sites and p = 2 the
claim predicts a seed and a solution of exactly 2 indices, but
pMedianOptimization returns a solution of length 1: the greedy seed run
at maxDistance = Infinity covers every colony with its first pick and
exits through the all-covered break after a single selection. -/
theorem claim1_seed_cex :
    ¬ (pMedianOptimization (fun _ _ => (0 : ℚ)) [sampleColony] 2 2 50).length = 2 := by
  have h1 : (pMedianOptimization (fun _ _ => (0 : ℚ)) [sampleColony] 2 2 50).length = 1 := by
    unfold pMedianOptimization
    rw [pMedianLoop_length]
    rw [greedySeed_infinite (fun _ _ => (0 : ℚ)) [sampleColony].length 2 2
      (by simp) (by omega) (by omega)]
    rfl
  omega

/-- C1 (amended): for every nonempty colony list, nonempty candidate list
and p at least 1, the greedy seed used by pMedianOptimization (greedy at
maxDistance = Infinity) selects exactly one candidate index, namely index
0 — its first pick covers every colony and the all-covered early exit
fires — and since swaps preserve length, the solution returned by
pMedianOptimization likewise contains exactly one index, not p. -/
theorem claim1_seed_single_site (dm : ℕ → ℕ → ℚ) (colonies : List Colony)
    (nSites p maxIterations : ℕ)
    (hc : colonies ≠ []) (hs : 0 < nSites) (hp : 1 ≤ p) :
    greedyFacilityLocation dm colonies.length nSites p none = [0] ∧
    (pMedianOptimization dm colonies nSites p maxIterations).length = 1 := by
  have h1 : 0 < colonies.length := List.length_pos.mpr hc
  have hseed := greedySeed_infinite dm colonies.length nSites p h1 hs hp
  refine ⟨hseed, ?_⟩
  unfold pMedianOptimization
  rw [pMedianLoop_length, hseed]
  rfl

/-- Witness for the amended C1 at the concrete counterexample input. -/
theorem claim1_seed_single_site_witness :
    greedyFacilityLocation (fun _ _ => (0 : ℚ)) [sampleColony].length 2 2 none = [0] ∧
    (pMedianOptimization (fun _ _ => (0 : ℚ)) [sampleColony] 2 2 50).length = 1 :=
  claim1_seed_single_site (fun _ _ => (0 : ℚ)) [sampleColony] 2 2 50
    (by simp) (by omega) (by omega)

end SolarLogistics

namespace SolarLogistics

/-- Full case analysis of the candidate scan: either no unselected
candidate newly covers anything and the scan reports none, or it reports
the lowest-index candidate attaining the (positive) maximal newly-covered
count. -/
theorem bestCandidate_charac (dm : ℕ → ℕ → ℚ) (md : Option ℚ) (nCol : ℕ)
    (selected covered : List ℕ) : ∀ nSites : ℕ,
    (bestCandidate dm md nCol nSites selected covered = (none, 0) ∧
      ∀ j, j < nSites → j ∉ selected →
        newlyCoveredCount dm md nCol covered j = 0) ∨
    (∃ b m, bestCandidate dm md nCol nSites selected covered = (some b, m) ∧
      b < nSites ∧ b ∉ selected ∧
      m = newlyCoveredCount dm md nCol covered b ∧ 0 < m ∧
      (∀ j, j < nSites → j ∉ selected →
        newlyCoveredCount dm md nCol covered j ≤ m) ∧
      (∀ j, j < b → j ∉ selected →
        newlyCoveredCount dm md nCol covered j < m)) := by
  intro nSites
  induction nSites with
  | zero =>
    left
    constructor
    · rfl
    · intro j hj; omega
  | succ n ih =>
    have hsucc : bestCandidate dm md nCol (n + 1) selected covered =
        (if selected.contains n then bestCandidate dm md nCol n selected covered
         else
           let nc := newlyCoveredCount dm md nCol covered n
           if (bestCandidate dm md nCol n selected covered).2 < nc then (some n, nc)
           else bestCandidate dm md nCol n selected covered) := by
      unfold bestCandidate
      rw [List.range_succ, List.foldl_append, List.foldl_cons, List.foldl_nil]
    by_cases hsel : n ∈ selected
    · have hsel2 : selected.contains n = true := by
        simpa using hsel
      rw [hsel2, if_pos rfl] at hsucc
      rcases ih with ⟨heq, hall⟩ | ⟨b, m, heq, hb, hbs, hm, hmpos, hle, hlt⟩
      · left
        refine ⟨by rw [hsucc, heq], ?_⟩
        intro j hj hjs
        rcases Nat.lt_succ_iff_lt_or_eq.mp hj with hj2 | rfl
        · exact hall j hj2 hjs
        · exact absurd hsel hjs
      · right
        refine ⟨b, m, by rw [hsucc, heq], by omega, hbs, hm, hmpos, ?_, hlt⟩
        intro j hj hjs
        rcases Nat.lt_succ_iff_lt_or_eq.mp hj with hj2 | rfl
        · exact hle j hj2 hjs
        · exact absurd hsel hjs
    · have hsel2 : selected.contains n = false := by
        simpa using hsel
      rw [hsel2] at hsucc
      simp only [Bool.false_eq_true, if_false] at hsucc
      rcases ih with ⟨heq, hall⟩ | ⟨b, m, heq, hb, hbs, hm, hmpos, hle, hlt⟩
      · rw [heq] at hsucc
        by_cases hpos : 0 < newlyCoveredCount dm md nCol covered n
        · right
          refine ⟨n, newlyCoveredCount dm md nCol covered n, ?_, by omega, hsel,
            rfl, hpos, ?_, ?_⟩
          · rw [hsucc]; simp [hpos]
          · intro j hj hjs
            rcases Nat.lt_succ_iff_lt_or_eq.mp hj with hj2 | rfl
            · rw [hall j hj2 hjs]; omega
            · exact le_refl _
          · intro j hj hjs
            rw [hall j (by omega) hjs]
            exact hpos
        · left
          have hz : newlyCoveredCount dm md nCol covered n = 0 := by omega
          refine ⟨?_, ?_⟩
          · rw [hsucc]; simp [hz]
          · intro j hj hjs
            rcases Nat.lt_succ_iff_lt_or_eq.mp hj with hj2 | rfl
            · exact hall j hj2 hjs
            · exact hz
      · rw [heq] at hsucc
        by_cases hgt : m < newlyCoveredCount dm md nCol covered n
        · right
          refine ⟨n, newlyCoveredCount dm md nCol covered n, ?_, by omega, hsel,
            rfl, by omega, ?_, ?_⟩
          · rw [hsucc]; simp [hgt]
          · intro j hj hjs
            rcases Nat.lt_succ_iff_lt_or_eq.mp hj with hj2 | rfl
            · exact le_trans (hle j hj2 hjs) (le_of_lt hgt)
            · exact le_refl _
          · intro j hj hjs
            exact lt_of_le_of_lt (hle j (by omega) hjs) hgt
        · right
          refine ⟨b, m, ?_, by omega, hbs, hm, hmpos, ?_, hlt⟩
          · rw [hsucc]; simp [hgt]
          · intro j hj hjs
            rcases Nat.lt_succ_iff_lt_or_eq.mp hj with hj2 | rfl
            · exact hle j hj2 hjs
            · omega

/-- Unfolding equation of the selection loop when the scan finds no
candidate. -/
theorem greedyLoop_succ_none (dm : ℕ → ℕ → ℚ) (md : Option ℚ)
    (nCol nSites n : ℕ) (selected covered : List ℕ) (k : ℕ)
    (heq : bestCandidate dm md nCol nSites selected covered = (none, k)) :
    greedyLoop dm md nCol nSites (n + 1) selected covered = selected := by
  unfold greedyLoop
  rw [heq]

/-- Unfolding equation of the selection loop when the scan returns a
candidate. -/
theorem greedyLoop_succ_some (dm : ℕ → ℕ → ℚ) (md : Option ℚ)
    (nCol nSites n : ℕ) (selected covered : List ℕ) (b m : ℕ)
    (heq : bestCandidate dm md nCol nSites selected covered = (some b, m)) :
    greedyLoop dm md nCol nSites (n + 1) selected covered =
      (if m = 0 then selected
       else
         if (updateCovered dm md nCol covered b).length = nCol then selected ++ [b]
         else greedyLoop dm md nCol nSites n (selected ++ [b])
           (updateCovered dm md nCol covered b)) := by
  conv_lhs => unfold greedyLoop
  rw [heq]

/-- When no unselected candidate adds coverage the selection loop stops
immediately, whatever fuel remains. -/
theorem greedyLoop_no_coverage (dm : ℕ → ℕ → ℚ) (md : Option ℚ)
    (nCol nSites : ℕ) (fuel : ℕ) (selected covered : List ℕ)
    (h : ∀ j, j < nSites → j ∉ selected →
      newlyCoveredCount dm md nCol covered j = 0) :
    greedyLoop dm md nCol nSites fuel selected covered = selected := by
  cases fuel with
  | zero => rfl
  | succ n =>
    rcases bestCandidate_charac dm md nCol selected covered nSites with
      ⟨heq, -⟩ | ⟨b, m, heq, hb, hbs, hm, hmpos, -, -⟩
    · exact greedyLoop_succ_none dm md nCol nSites n selected covered 0 heq
    · exfalso
      rw [h b hb hbs] at hm
      omega

/-- The selection loop only appends fresh in-range indices: the result is
duplicate-free, all indices are below the candidate count, and at most
fuel indices are added. -/
theorem greedyLoop_sound (dm : ℕ → ℕ → ℚ) (md : Option ℚ) (nCol nSites : ℕ) :
    ∀ (fuel : ℕ) (selected covered : List ℕ),
      selected.Nodup → (∀ i ∈ selected, i < nSites) →
      (greedyLoop dm md nCol nSites fuel selected covered).Nodup ∧
      (∀ i ∈ greedyLoop dm md nCol nSites fuel selected covered, i < nSites) ∧
      (greedyLoop dm md nCol nSites fuel selected covered).length ≤
        selected.length + fuel := by
  intro fuel
  induction fuel with
  | zero =>
    intro selected covered hnd hmem
    refine ⟨hnd, hmem, ?_⟩
    show selected.length ≤ selected.length + 0
    omega
  | succ n ih =>
    intro selected covered hnd hmem
    rcases bestCandidate_charac dm md nCol selected covered nSites with
      ⟨heq, -⟩ | ⟨b, m, heq, hb, hbs, -, hmpos, -, -⟩
    · rw [greedyLoop_succ_none dm md nCol nSites n selected covered 0 heq]
      exact ⟨hnd, hmem, by omega⟩
    · have hnd1 : (selected ++ [b]).Nodup := by
        simp [List.nodup_append, hnd, hbs]
      have hmem1 : ∀ i ∈ selected ++ [b], i < nSites := by
        intro i hi
        rcases List.mem_append.mp hi with hi1 | hi1
        · exact hmem i hi1
        · rw [List.mem_singleton.mp hi1]; exact hb
      have hmz : ¬ m = 0 := by omega
      rw [greedyLoop_succ_some dm md nCol nSites n selected covered b m heq, if_neg hmz]
      split_ifs with hcov
      · exact ⟨hnd1, hmem1, by simp⟩
      · have hrec := ih (selected ++ [b])
          (updateCovered dm md nCol covered b) hnd1 hmem1
        refine ⟨hrec.1, hrec.2.1, ?_⟩
        have := hrec.2.2
        simp only [List.length_append, List.length_singleton] at this
        omega

/-- C7: greedyFacilityLocation returns at most maxDepots pairwise-distinct
candidate indices, all below the candidate count; whenever several
candidates tie on the maximal newly-covered count the scan selects the
lowest index among them (and only ever selects a candidate that newly
covers at least one colony); and as soon as no unselected candidate newly
covers any uncovered colony — in particular when every colony is already
covered — the loop stops early, returning what it has. -/
theorem claim7_greedy_properties (dm : ℕ → ℕ → ℚ) (maxDistance : Option ℚ)
    (nColonies nSites maxDepots : ℕ) :
    (greedyFacilityLocation dm nColonies nSites maxDepots maxDistance).length ≤ maxDepots ∧
    (greedyFacilityLocation dm nColonies nSites maxDepots maxDistance).Nodup ∧
    (∀ i ∈ greedyFacilityLocation dm nColonies nSites maxDepots maxDistance, i < nSites) ∧
    (∀ selected covered : List ℕ, ∀ b m : ℕ,
      bestCandidate dm maxDistance nColonies nSites selected covered = (some b, m) →
      b < nSites ∧ b ∉ selected ∧
      m = newlyCoveredCount dm maxDistance nColonies covered b ∧ 0 < m ∧
      (∀ j, j < nSites → j ∉ selected →
        newlyCoveredCount dm maxDistance nColonies covered j ≤ m) ∧
      (∀ j, j < b → j ∉ selected →
        newlyCoveredCount dm maxDistance nColonies covered j < m)) ∧
    (∀ fuel : ℕ, ∀ selected covered : List ℕ,
      (∀ j, j < nSites → j ∉ selected →
        newlyCoveredCount dm maxDistance nColonies covered j = 0) →
      greedyLoop dm maxDistance nColonies nSites fuel selected covered = selected) := by
  have hsound := greedyLoop_sound dm maxDistance nColonies nSites maxDepots [] []
    List.nodup_nil (by intro i hi; cases hi)
  refine ⟨by simpa using hsound.2.2, hsound.1, hsound.2.1, ?_, ?_⟩
  · intro selected covered b m heq
    rcases bestCandidate_charac dm maxDistance nColonies selected covered nSites with
      ⟨heq2, -⟩ | ⟨b2, m2, heq2, hb, hbs, hm, hmpos, hle, hlt⟩
    · rw [heq] at heq2; cases heq2
    · rw [heq] at heq2
      have h1 : b = b2 := Option.some.inj (congrArg Prod.fst heq2)
      have h2 : m = m2 := congrArg Prod.snd heq2
      subst h1
      subst h2
      exact ⟨hb, hbs, hm, hmpos, hle, hlt⟩
  · exact fun fuel selected covered h =>
      greedyLoop_no_coverage dm maxDistance nColonies nSites fuel selected covered h

end SolarLogistics

namespace SolarLogistics

/-- Witness for C7 at a concrete input: one colony, two candidate sites
at equal distance (a tie), budget for three depots; the scan picks the
lowest tied index 0, and a loop with everything already selected stops. -/
theorem claim7_greedy_properties_witness :
    (greedyFacilityLocation (fun _ _ => (0 : ℚ)) 1 2 3 (some 2)).length ≤ 3 ∧
    ((0 : ℕ) < 2 ∧ (0 : ℕ) ∉ ([] : List ℕ) ∧
      (1 : ℕ) = newlyCoveredCount (fun _ _ => (0 : ℚ)) (some 2) 1 [] 0 ∧ (0 : ℕ) < 1 ∧
      (∀ j, j < 2 → j ∉ ([] : List ℕ) →
        newlyCoveredCount (fun _ _ => (0 : ℚ)) (some 2) 1 [] j ≤ 1) ∧
      (∀ j, j < 0 → j ∉ ([] : List ℕ) →
        newlyCoveredCount (fun _ _ => (0 : ℚ)) (some 2) 1 [] j < 1)) ∧
    greedyLoop (fun _ _ => (0 : ℚ)) (some 2) 1 2 1 [0, 1] [] = [0, 1] :=
  ⟨(claim7_greedy_properties (fun _ _ => (0 : ℚ)) (some 2) 1 2 3).1,
   (claim7_greedy_properties (fun _ _ => (0 : ℚ)) (some 2) 1 2 3).2.2.2.1 [] [] 0 1
     (by decide),
   (claim7_greedy_properties (fun _ _ => (0 : ℚ)) (some 2) 1 2 3).2.2.2.2 1 [0, 1] []
     (by
       intro j hj hns
       exfalso
       apply hns
       interval_cases j <;> simp)⟩

end SolarLogistics

namespace SolarLogistics

/-- One-decimal rounding keeps values inside [0, 100]. -/
theorem round1_bounds (q : ℚ) (h0 : 0 ≤ q) (h1 : q ≤ 100) :
    0 ≤ round1 q ∧ round1 q ≤ 100 := by
  unfold round1 jsRound
  constructor
  · have hf : (0 : ℤ) ≤ ⌊q * 10 + 1 / 2⌋ := by
      rw [Int.le_floor]
      push_cast
      linarith
    have : (0 : ℚ) ≤ ((⌊q * 10 + 1 / 2⌋ : ℤ) : ℚ) := by exact_mod_cast hf
    linarith [this]
  · have hf : ⌊q * 10 + 1 / 2⌋ ≤ (1000 : ℤ) := by
      rw [Int.floor_le_iff]
      push_cast
      linarith
    have : ((⌊q * 10 + 1 / 2⌋ : ℤ) : ℚ) ≤ 1000 := by exact_mod_cast hf
    linarith [this]

/-- Accumulated met demand stays between zero and accumulated total
demand when every colony's inventory and demand totals are non-negative. -/
theorem foldl_met_le_dem : ∀ (L : List Colony),
    (∀ c ∈ L, 0 ≤ c.inventory.total ∧ 0 ≤ c.demand.total) →
    ∀ a b : ℚ, 0 ≤ a → a ≤ b →
      0 ≤ L.foldl (fun acc c => acc + min c.inventory.total c.demand.total) a ∧
      L.foldl (fun acc c => acc + min c.inventory.total c.demand.total) a ≤
        L.foldl (fun acc c => acc + c.demand.total) b := by
  intro L
  induction L with
  | nil => intro _ a b ha hab; exact ⟨ha, hab⟩
  | cons c t ih =>
    intro h a b ha hab
    have hc := h c (List.mem_cons_self c t)
    have ht := fun c2 hc2 => h c2 (List.mem_cons_of_mem c hc2)
    simp only [List.foldl_cons]
    refine ih ht (a + min c.inventory.total c.demand.total) (b + c.demand.total) ?_ ?_
    · have : (0 : ℚ) ≤ min c.inventory.total c.demand.total := le_min hc.1 hc.2
      linarith
    · have : min c.inventory.total c.demand.total ≤ c.demand.total := min_le_right _ _
      linarith

/-- Accumulated satisfaction stays between zero and 100 per colony. -/
theorem foldl_sat_bounds : ∀ (L : List Colony),
    (∀ c ∈ L, 0 ≤ c.satisfaction ∧ c.satisfaction ≤ 100) →
    ∀ a : ℚ, 0 ≤ a →
      0 ≤ L.foldl (fun acc c => acc + c.satisfaction) a ∧
      L.foldl (fun acc c => acc + c.satisfaction) a ≤ a + 100 * L.length := by
  intro L
  induction L with
  | nil =>
    intro _ a ha
    constructor
    · simpa using ha
    · simp
  | cons c t ih =>
    intro h a ha
    have hc := h c (List.mem_cons_self c t)
    have ht := fun c2 hc2 => h c2 (List.mem_cons_of_mem c hc2)
    simp only [List.foldl_cons, List.length_cons]
    have hrec := ih ht (a + c.satisfaction) (by linarith [hc.1])
    refine ⟨hrec.1, le_trans hrec.2 ?_⟩
    push_cast
    linarith [hc.2]

end SolarLogistics

namespace SolarLogistics

/-- C10 (amended): for every state with a nonempty colony list in which
every colony's satisfaction lies in [0, 100] and every colony's inventory
and demand are non-negative, all four reported score fields lie in
[0, 100].  (Without the non-negativity amendment the lower bound on
deliveryRate fails, see the counterexample.) -/
theorem claim10_score_bounds (s : GameState)
    (hne : s.colonies ≠ [])
    (hsat : ∀ c ∈ s.colonies, 0 ≤ c.satisfaction ∧ c.satisfaction ≤ 100)
    (hinv : ∀ c ∈ s.colonies, c.inventory.nonneg)
    (hdem : ∀ c ∈ s.colonies, c.demand.nonneg) :
    (0 ≤ (calculateScore s).score.deliveryRate ∧
      (calculateScore s).score.deliveryRate ≤ 100) ∧
    (0 ≤ (calculateScore s).score.costEfficiency ∧
      (calculateScore s).score.costEfficiency ≤ 100) ∧
    (0 ≤ (calculateScore s).score.customerSatisfaction ∧
      (calculateScore s).score.customerSatisfaction ≤ 100) ∧
    (0 ≤ (calculateScore s).score.totalScore ∧
      (calculateScore s).score.totalScore ≤ 100) := by
  have htotals : ∀ c ∈ s.colonies, 0 ≤ c.inventory.total ∧ 0 ≤ c.demand.total := by
    intro c hc
    have h1 := hinv c hc
    have h2 := hdem c hc
    unfold Resources.nonneg at h1 h2
    unfold Resources.total
    constructor <;> linarith [h1.1, h1.2.1, h1.2.2.1, h1.2.2.2,
      h2.1, h2.2.1, h2.2.2.1, h2.2.2.2]
  have hmet := foldl_met_le_dem s.colonies htotals 0 0 (le_refl 0) (le_refl 0)
  have hlenpos : 0 < (s.colonies.length : ℚ) := by
    have := List.length_pos.mpr hne
    exact_mod_cast this
  have hS := foldl_sat_bounds s.colonies hsat 0 (le_refl 0)
  have hdr : 0 ≤ (if 0 < s.colonies.foldl (fun acc c => acc + c.demand.total) 0 then
        s.colonies.foldl (fun acc c => acc + min c.inventory.total c.demand.total) 0 /
          s.colonies.foldl (fun acc c => acc + c.demand.total) 0 * 100
      else 100) ∧
      (if 0 < s.colonies.foldl (fun acc c => acc + c.demand.total) 0 then
        s.colonies.foldl (fun acc c => acc + min c.inventory.total c.demand.total) 0 /
          s.colonies.foldl (fun acc c => acc + c.demand.total) 0 * 100
      else 100) ≤ 100 := by
    split_ifs with htd
    · constructor
      · have := div_nonneg hmet.1 (le_of_lt htd)
        linarith
      · have hle : s.colonies.foldl
            (fun acc c => acc + min c.inventory.total c.demand.total) 0 /
            s.colonies.foldl (fun acc c => acc + c.demand.total) 0 ≤ 1 :=
          (div_le_one htd).mpr hmet.2
        linarith
    · norm_num
  have hce : 0 ≤ (if 0 < s.budget then min 100 (s.budget / 10000 * 100) else 0) ∧
      (if 0 < s.budget then min 100 (s.budget / 10000 * 100) else 0) ≤ 100 := by
    split_ifs with hb
    · constructor
      · apply le_min
        · norm_num
        · positivity
      · exact min_le_left _ _
    · norm_num
  have hcs : 0 ≤ s.colonies.foldl (fun acc c => acc + c.satisfaction) 0 /
        (s.colonies.length : ℚ) ∧
      s.colonies.foldl (fun acc c => acc + c.satisfaction) 0 /
        (s.colonies.length : ℚ) ≤ 100 := by
    constructor
    · exact div_nonneg hS.1 (le_of_lt hlenpos)
    · rw [div_le_iff₀ hlenpos]
      have := hS.2
      linarith
  refine ⟨?_, ?_, ?_, ?_⟩
  · exact round1_bounds _ hdr.1 hdr.2
  · exact round1_bounds _ hce.1 hce.2
  · exact round1_bounds _ hcs.1 hcs.2
  · apply round1_bounds
    · nlinarith [hdr.1, hce.1, hcs.1]
    · nlinarith [hdr.2, hce.2, hcs.2, hdr.1, hce.1, hcs.1]

end SolarLogistics

namespace SolarLogistics

/-- C10 counterexample: a state satisfying the claim's hypotheses (one
colony, satisfaction 50) but holding a negative inventory gets a
deliveryRate of -10000, far outside [0, 100]; the claimed bound needs
non-negative inventories. -/
theorem claim10_score_bounds_cex :
    negInvState.colonies ≠ [] ∧
    (∀ c ∈ negInvState.colonies, 0 ≤ c.satisfaction ∧ c.satisfaction ≤ 100) ∧
    (calculateScore negInvState).score.deliveryRate < 0 := by
  refine ⟨by simp [negInvState, baseState], ?_, ?_⟩
  · intro c hc
    have : c = negInvColony := by
      simpa [negInvState, baseState] using hc
    rw [this]
    norm_num [negInvColony]
  · have h : (calculateScore negInvState).score.deliveryRate =
        round1 ((-100) / 1 * 100) := by
      have hmin : min ((-100 : ℚ) + 0 + 0 + 0) (1 + 0 + 0 + 0) = -100 := by
        rw [min_eq_left] <;> norm_num
      norm_num [calculateScore, negInvState, negInvColony, baseState,
        Resources.total, hmin]
    rw [h]
    have h2 : round1 ((-100 : ℚ) / 1 * 100) = -10000 := by
      unfold round1 jsRound
      norm_num
    rw [h2]
    norm_num

end SolarLogistics

namespace SolarLogistics

/-- Witness for the amended C10 on the sample state. -/
theorem claim10_score_bounds_witness :
    (0 ≤ (calculateScore baseState).score.deliveryRate ∧
      (calculateScore baseState).score.deliveryRate ≤ 100) ∧
    (0 ≤ (calculateScore baseState).score.costEfficiency ∧
      (calculateScore baseState).score.costEfficiency ≤ 100) ∧
    (0 ≤ (calculateScore baseState).score.customerSatisfaction ∧
      (calculateScore baseState).score.customerSatisfaction ≤ 100) ∧
    (0 ≤ (calculateScore baseState).score.totalScore ∧
      (calculateScore baseState).score.totalScore ≤ 100) :=
  claim10_score_bounds baseState (by simp [baseState]) (by decide) (by decide) (by decide)

end SolarLogistics

namespace SolarLogistics

theorem tickRoute_id (r : Route) : (tickRoute r).id = r.id := by
  simp only [tickRoute]
  split_ifs <;> rfl

/-- An in-transit route with at least two turns left is only decremented
by the tick. -/
theorem tickRoute_in_transit (r : Route) (h : r.status = RouteStatus.in_transit)
    (hd : 2 ≤ r.duration) :
    tickRoute r = { r with duration := r.duration - 1 } := by
  simp only [tickRoute, if_pos h]
  rw [if_neg]
  show ¬ r.duration - 1 ≤ 0
  omega

theorem routeCompletes_false_of (r : Route)
    (h : r.status = RouteStatus.in_transit) (hd : 2 ≤ r.duration) :
    routeCompletes r = false := by
  simp [routeCompletes, h]
  omega

theorem routeCompletes_true_of (r : Route)
    (h : r.status = RouteStatus.in_transit) (hd : r.duration ≤ 1) :
    routeCompletes r = true := by
  simp [routeCompletes, h, hd]

/-- Membership in the post-step route list: a survivor is the tick of some
route whose id is not among the ids completed this step. -/
theorem mem_stepRoutes (routes : List Route) (r2 : Route) :
    r2 ∈ stepRoutes routes ↔
      (∃ r1 ∈ routes, tickRoute r1 = r2) ∧
      ∀ rc ∈ routes, routeCompletes rc = true → rc.id ≠ r2.id := by
  unfold stepRoutes
  simp [List.mem_filter, List.mem_map, List.elem_iff, List.contains]

/-- Tracking an in-transit route with at least two turns left through one
route-processing step: its decremented copy survives, and it is still the
only route with its id. -/
theorem stepRoutes_track (routes : List Route) (r : Route)
    (hmem : r ∈ routes) (huniq : ∀ r2 ∈ routes, r2.id = r.id → r2 = r)
    (hst : r.status = RouteStatus.in_transit) (hd : 2 ≤ r.duration) :
    ({ r with duration := r.duration - 1 } ∈ stepRoutes routes) ∧
    (∀ r2 ∈ stepRoutes routes, r2.id = r.id →
      r2 = { r with duration := r.duration - 1 }) := by
  constructor
  · rw [mem_stepRoutes]
    refine ⟨⟨r, hmem, tickRoute_in_transit r hst hd⟩, ?_⟩
    intro rc hrc hcomp he
    have hrcr : rc = r := huniq rc hrc (by simpa using he)
    rw [hrcr] at hcomp
    rw [routeCompletes_false_of r hst hd] at hcomp
    cases hcomp
  · intro r2 h2 hid
    rcases (mem_stepRoutes routes r2).mp h2 with ⟨⟨r1, hr1, hr1e⟩, -⟩
    have : r1.id = r.id := by
      rw [← tickRoute_id r1, hr1e, hid]
    have hr1r : r1 = r := huniq r1 hr1 this
    rw [← hr1e, hr1r, tickRoute_in_transit r hst hd]

/-- A route completing this step leaves no route with its id behind. -/
theorem stepRoutes_completed_gone (routes : List Route) (r : Route)
    (hmem : r ∈ routes) (hcomp : routeCompletes r = true) :
    ∀ r2 ∈ stepRoutes routes, r2.id ≠ r.id := by
  intro r2 h2 hid
  rcases (mem_stepRoutes routes r2).mp h2 with ⟨-, hnone⟩
  exact hnone r hmem hcomp hid.symm

/-- Route processing never resurrects an id that is absent. -/
theorem stepRoutes_id_absent (routes : List Route) (i : String)
    (h : ∀ r2 ∈ routes, r2.id ≠ i) :
    ∀ r2 ∈ stepRoutes routes, r2.id ≠ i := by
  intro r2 h2
  rcases (mem_stepRoutes routes r2).mp h2 with ⟨⟨r1, hr1, hr1e⟩, -⟩
  rw [← hr1e, tickRoute_id]
  exact h r1 hr1

theorem routes_checkGameOver (s : GameState) : (checkGameOver s).routes = s.routes := by
  unfold checkGameOver
  split_ifs <;> rfl

/-- The only step of advanceTurn that touches the route list is
processRoutes: one turn maps the routes through exactly one stepRoutes. -/
theorem advanceTurn_routes (s : GameState) :
    (advanceTurn s).routes = stepRoutes s.routes := by
  unfold advanceTurn
  rw [routes_checkGameOver]
  split_ifs <;> rfl

end SolarLogistics

namespace SolarLogistics

/-- Tracking a unique in-transit route of duration d across iterated
turns: for k strictly before d the route survives as the unique carrier of
its id with duration d - k, and from turn d on no route carries its id. -/
theorem advanceTurn_route_track (s : GameState) (r : Route) (d : ℕ)
    (hmem : r ∈ s.routes) (huniq : ∀ r2 ∈ s.routes, r2.id = r.id → r2 = r)
    (hst : r.status = RouteStatus.in_transit) (hdur : r.duration = (d : ℤ))
    (hd : 1 ≤ d) :
    ∀ k : ℕ,
      (k < d →
        ({ r with duration := (d : ℤ) - (k : ℤ) } ∈ (advanceTurn^[k] s).routes ∧
         ∀ r2 ∈ (advanceTurn^[k] s).routes, r2.id = r.id →
           r2 = { r with duration := (d : ℤ) - (k : ℤ) })) ∧
      (d ≤ k → ∀ r2 ∈ (advanceTurn^[k] s).routes, r2.id ≠ r.id) := by
  intro k
  induction k with
  | zero =>
    constructor
    · intro _
      have hr : ({ r with duration := (d : ℤ) - ((0 : ℕ) : ℤ) } : Route) = r := by
        have : (d : ℤ) - ((0 : ℕ) : ℤ) = r.duration := by rw [hdur]; simp
        rw [this]
    
      rw [Function.iterate_zero_apply]
      exact ⟨hr ▸ hmem, fun r2 h2 hid => hr ▸ huniq r2 h2 hid⟩
    · intro h0
      omega
  | succ k ih =>
    have hstep : (advanceTurn^[k + 1] s).routes =
        stepRoutes ((advanceTurn^[k] s).routes) := by
      rw [Function.iterate_succ_apply', advanceTurn_routes]
    constructor
    · intro hk1
      have hk : k < d := by omega
      obtain ⟨hpres, huni⟩ := (ih).1 hk
      have htrack := stepRoutes_track ((advanceTurn^[k] s).routes)
        { r with duration := (d : ℤ) - (k : ℤ) } hpres
        (fun r2 h2 hid => huni r2 h2 hid) hst
        (by show (2 : ℤ) ≤ (d : ℤ) - (k : ℤ); omega)
      have harith : ((d : ℤ) - (k : ℤ)) - 1 = (d : ℤ) - ((k + 1 : ℕ) : ℤ) := by
        push_cast
        ring
      constructor
      · rw [hstep]
        have := htrack.1
        simpa [harith] using this
      · intro r2 h2 hid
        rw [hstep] at h2
        have := htrack.2 r2 h2 hid
        simpa [harith] using this
    · intro hk1
      rcases Nat.lt_or_ge k d with hk | hk
      · have hkd : k = d - 1 := by omega
        obtain ⟨hpres, -⟩ := (ih).1 hk
        have hcomp : routeCompletes { r with duration := (d : ℤ) - (k : ℤ) } = true := by
          apply routeCompletes_true_of
          · exact hst
          · show (d : ℤ) - (k : ℤ) ≤ 1
            omega
        intro r2 h2
        rw [hstep] at h2
        exact stepRoutes_completed_gone ((advanceTurn^[k] s).routes)
          { r with duration := (d : ℤ) - (k : ℤ) } hpres hcomp r2 h2
      · intro r2 h2
        rw [hstep] at h2
        exact stepRoutes_id_absent ((advanceTurn^[k] s).routes) r.id
          ((ih).2 hk) r2 h2

end SolarLogistics

namespace SolarLogistics

/-- Folding plus over mapped values equals the start plus the mapped sum. -/
theorem foldl_add_map {α : Type} (f : α → ℚ) :
    ∀ (l : List α) (a : ℚ), l.foldl (fun acc x => acc + f x) a = a + (l.map f).sum := by
  intro l
  induction l with
  | nil => intro a; simp
  | cons c t ih =>
    intro a
    simp only [List.foldl_cons, List.map_cons, List.sum_cons, ih]
    ring

/-- The conditional accumulation over routes equals the start plus the sum
of the costs of the in-transit routes. -/
theorem foldl_cost_if :
    ∀ (l : List Route) (a : ℚ),
      l.foldl (fun acc r =>
        if r.status = RouteStatus.in_transit then acc + r.cost else acc) a =
      a + ((l.filter (fun r => r.status == RouteStatus.in_transit)).map Route.cost).sum := by
  intro l
  induction l with
  | nil => intro a; simp
  | cons c t ih =>
    intro a
    by_cases h : c.status = RouteStatus.in_transit
    · simp only [List.foldl_cons, if_pos h, List.filter_cons,
        beq_iff_eq, h, if_true, List.map_cons, List.sum_cons, ih]
      ring
    · simp only [List.foldl_cons, if_neg h, List.filter_cons]
      rw [if_neg (by simpa using h)]
      exact ih a

/-- C3: a route's cost enters expenses once per turn it is still in
transit after that turn's route processing — expenses is the rounded sum
of depot maintenance (scaled by the difficulty's maintenance multiplier)
plus the costs of the routes still in transit — and never at creation
(createRoute changes neither budget, income nor expenses); consequently a
unique in-transit route created with duration d is present in transit, and
hence charged, after turn k exactly when k < d, i.e. in the d - 1 turns
following its creation turn, and a route of duration 1 is never charged. -/
theorem claim3_recurring_transport_charge :
    (∀ s : GameState, (calculateFinances s).expenses =
      jsRound ((s.depots.map (fun dp =>
          dp.maintenanceCost *
            (getDifficultySettings s.difficulty).maintenanceMultiplier)).sum +
        ((s.routes.filter (fun r =>
          r.status == RouteStatus.in_transit)).map Route.cost).sum)) ∧
    (∀ (s : GameState) (fromId toId newId : String) (cargo : Resources),
      (createRoute s fromId toId cargo newId).map
          (fun s2 => (s2.budget, s2.income, s2.expenses)) =
        (createRoute s fromId toId cargo newId).map
          (fun _ => (s.budget, s.income, s.expenses))) ∧
    (∀ (s : GameState) (r : Route) (d : ℕ),
      r ∈ s.routes → (∀ r2 ∈ s.routes, r2.id = r.id → r2 = r) →
      r.status = RouteStatus.in_transit → r.duration = (d : ℤ) → 1 ≤ d →
      ∀ k : ℕ,
        ((∃ r2 ∈ (advanceTurn^[k] s).routes,
            r2.id = r.id ∧ r2.status = RouteStatus.in_transit ∧
            r2.cost = r.cost) ↔ k < d)) := by
  refine ⟨?_, ?_, ?_⟩
  · intro s
    show jsRound _ = _
    rw [foldl_cost_if, foldl_add_map]
    rw [zero_add]
  · intro s fromId toId newId cargo
    unfold createRoute
    rcases hd : s.depots.find? (fun dp => dp.id == fromId) with - | dp <;>
      rcases hc : s.colonies.find? (fun c => c.id == toId) with - | c <;>
      simp only [hd, hc] <;> rfl
  · intro s r d hmem huniq hst hdur hd1 k
    have htrack := advanceTurn_route_track s r d hmem huniq hst hdur hd1 k
    constructor
    · rintro ⟨r2, h2, hid, -, -⟩
      by_contra hk
      exact htrack.2 (by omega) r2 h2 hid
    · intro hk
      obtain ⟨hpres, -⟩ := htrack.1 hk
      exact ⟨{ r with duration := (d : ℤ) - (k : ℤ) }, hpres, rfl, hst, rfl⟩

end SolarLogistics

namespace SolarLogistics

/-- Witness for C3: the sample route (duration 3, in transit) is still
present and in transit — hence charged — one turn after creation. -/
theorem claim3_recurring_transport_charge_witness :
    (∃ r2 ∈ (advanceTurn^[1] routeState).routes,
      r2.id = sampleRoute.id ∧ r2.status = RouteStatus.in_transit ∧
      r2.cost = sampleRoute.cost) ↔ 1 < 3 :=
  claim3_recurring_transport_charge.2.2 routeState sampleRoute 3
    (by decide) (by decide) rfl rfl (by omega) 1

end SolarLogistics

namespace SolarLogistics

theorem Resources.add_zero_right (r : Resources) : r.add Resources.zero = r := by
  cases r
  simp [Resources.add, Resources.zero]

theorem Resources.add_assoc2 (a b c : Resources) :
    (a.add b).add c = a.add (b.add c) := by
  cases a; cases b; cases c
  simp [Resources.add]
  refine ⟨?_, ?_, ?_, ?_⟩ <;> ring

theorem invOfCols_cons_hit (c : Colony) (cs : List Colony) (cid : String)
    (h : c.id = cid) : invOfCols (c :: cs) cid = c.inventory := by
  unfold invOfCols
  rw [List.find?_cons_of_pos]
  simpa using h

theorem invOfCols_cons_skip (c : Colony) (cs : List Colony) (cid : String)
    (h : ¬ c.id = cid) : invOfCols (c :: cs) cid = invOfCols cs cid := by
  unfold invOfCols
  rw [List.find?_cons_of_neg]
  simpa using h

/-- Adding cargo never changes the sequence of colony ids. -/
theorem addCargoFirst_ids (tid : String) (cg : Resources) :
    ∀ cols : List Colony,
      (addCargoFirst cols tid cg).map (fun c => c.id) = cols.map (fun c => c.id) := by
  intro cols
  induction cols with
  | nil => rfl
  | cons c cs ih =>
    unfold addCargoFirst
    split_ifs with h
    · simp
    · simp [ih]

/-- Reading the first colony with some id after adding cargo to the first
colony with a (possibly different) id: an exact accounting. -/
theorem invOf_addCargoFirst (tid : String) (cg : Resources) (cid : String) :
    ∀ cols : List Colony, (∃ c ∈ cols, c.id = cid) →
      invOfCols (addCargoFirst cols tid cg) cid =
        (if tid = cid then (invOfCols cols cid).add cg else invOfCols cols cid) := by
  intro cols
  induction cols with
  | nil => rintro ⟨c, hc, -⟩; cases hc
  | cons c cs ih =>
    intro hpres
    unfold addCargoFirst
    by_cases h1 : c.id = tid
    · rw [if_pos h1]
      by_cases h2 : c.id = cid
      · have h3 : tid = cid := h1.symm.trans h2
        rw [if_pos h3, invOfCols_cons_hit _ _ _ h2,
          invOfCols_cons_hit _ _ _ (show ({ c with
            inventory := c.inventory.add cg } : Colony).id = cid from h2)]
      · have h3 : ¬ tid = cid := fun he => h2 (h1.trans he)
        rw [if_neg h3, invOfCols_cons_skip _ _ _ h2,
          invOfCols_cons_skip _ _ _ (show ¬ ({ c with
            inventory := c.inventory.add cg } : Colony).id = cid from h2)]
    · rw [if_neg h1]
      by_cases h2 : c.id = cid
      · have h3 : ¬ tid = cid := fun he => h1 (h2.trans he.symm)
        rw [if_neg h3, invOfCols_cons_hit _ _ _ h2, invOfCols_cons_hit _ _ _ h2]
      · have hpres2 : ∃ c2 ∈ cs, c2.id = cid := by
          rcases hpres with ⟨c2, hc2, he2⟩
          rcases List.mem_cons.mp hc2 with rfl | hc3
          · exact absurd he2 h2
          · exact ⟨c2, hc3, he2⟩
        rw [invOfCols_cons_skip _ _ _ h2, invOfCols_cons_skip _ _ _ h2]
        exact ih hpres2

/-- Presence of a colony id survives cargo additions. -/
theorem addCargoFirst_pres (tid : String) (cg : Resources) (cid : String)
    (cols : List Colony) (h : ∃ c ∈ cols, c.id = cid) :
    ∃ c ∈ addCargoFirst cols tid cg, c.id = cid := by
  have h1 : cid ∈ (addCargoFirst cols tid cg).map (fun c => c.id) := by
    rw [addCargoFirst_ids]
    rcases h with ⟨c, hc, he⟩
    exact List.mem_map.mpr ⟨c, hc, he⟩
  rcases List.mem_map.mp h1 with ⟨c, hc, he⟩
  exact ⟨c, hc, he⟩

/-- Delivering a batch of completed routes adds to each present colony
exactly the summed cargo destined for it. -/
theorem invOf_deliver_fold (cid : String) :
    ∀ (rs : List Route) (cols : List Colony), (∃ c ∈ cols, c.id = cid) →
      invOfCols (rs.foldl (fun cs r => addCargoFirst cs r.toId r.cargo) cols) cid =
        (invOfCols cols cid).add (sumCargoTo rs cid) := by
  intro rs
  induction rs with
  | nil =>
    intro cols _
    simp [sumCargoTo, Resources.add_zero_right]
  | cons r rest ih =>
    intro cols hpres
    simp only [List.foldl_cons, sumCargoTo]
    rw [ih (addCargoFirst cols r.toId r.cargo)
      (addCargoFirst_pres r.toId r.cargo cid cols hpres)]
    rw [invOf_addCargoFirst r.toId r.cargo cid cols hpres]
    split_ifs with h
    · rw [Resources.add_assoc2]
    · rfl

end SolarLogistics

namespace SolarLogistics

/-- Cargo destined for an id no colony carries changes nothing. -/
theorem addCargoFirst_no_match (tid : String) (cg : Resources) :
    ∀ cols : List Colony, (∀ c ∈ cols, c.id ≠ tid) →
      addCargoFirst cols tid cg = cols := by
  intro cols
  induction cols with
  | nil => intro _; rfl
  | cons c cs ih =>
    intro h
    unfold addCargoFirst
    rw [if_neg (h c (List.mem_cons_self c cs))]
    rw [ih (fun c2 hc2 => h c2 (List.mem_cons_of_mem c hc2))]

/-- Delivering routes whose destinations match no colony leaves the colony
list unchanged. -/
theorem deliver_fold_no_match :
    ∀ (rs : List Route) (cols : List Colony),
      (∀ c ∈ cols, ∀ rr ∈ rs, rr.toId ≠ c.id) →
      rs.foldl (fun cs r => addCargoFirst cs r.toId r.cargo) cols = cols := by
  intro rs
  induction rs with
  | nil => intro cols _; rfl
  | cons r rest ih =>
    intro cols h
    simp only [List.foldl_cons]
    rw [addCargoFirst_no_match r.toId r.cargo cols
      (fun c hc he => h c hc r (List.mem_cons_self r rest) he.symm)]
    exact ih cols (fun c hc rr hrr => h c hc rr (List.mem_cons_of_mem r hrr))

end SolarLogistics

namespace SolarLogistics

/-- C4: in-transit route lifecycle under iterated turns.  First: a turn
maps the route list through exactly one route-processing step.  Second:
for a unique in-transit route of duration d at least 1, after each of the
first d - 1 turns its descendant is still in transit with the duration
decremented by one per turn and the cargo and destination unchanged, and
the descendant completes (is delivered and removed) exactly in the d-th
turn, after which no route with its id remains — whether or not the
destination colony exists.  Third: one route-processing step adds to each
existing colony's inventory exactly the summed cargo of the routes
completing this step that are destined for it, by unclamped addition, so a
delivered route's cargo is added to its destination exactly once.
Fourth: cargo whose destination id matches no colony is silently dropped,
the colony list being left unchanged. -/
theorem claim4_route_delivery :
    (∀ s : GameState, (advanceTurn s).routes = stepRoutes s.routes) ∧
    (∀ (s : GameState) (r : Route) (d : ℕ),
      r ∈ s.routes → (∀ r2 ∈ s.routes, r2.id = r.id → r2 = r) →
      r.status = RouteStatus.in_transit → r.duration = (d : ℤ) → 1 ≤ d →
      ∀ k : ℕ,
        (k < d →
          ({ r with duration := (d : ℤ) - (k : ℤ) } ∈ (advanceTurn^[k] s).routes ∧
           ({ r with duration := (d : ℤ) - (k : ℤ) } : Route).status =
             RouteStatus.in_transit ∧
           ({ r with duration := (d : ℤ) - (k : ℤ) } : Route).cargo = r.cargo ∧
           ({ r with duration := (d : ℤ) - (k : ℤ) } : Route).toId = r.toId ∧
           (routeCompletes { r with duration := (d : ℤ) - (k : ℤ) } = true ↔
             k = d - 1))) ∧
        (d ≤ k → ∀ r2 ∈ (advanceTurn^[k] s).routes, r2.id ≠ r.id)) ∧
    (∀ t : GameState, ∀ c ∈ t.colonies,
      invOfCols (processRoutes t).colonies c.id =
        (invOfCols t.colonies c.id).add
          (sumCargoTo (t.routes.filter routeCompletes) c.id)) ∧
    (∀ t : GameState,
      (∀ c ∈ t.colonies, ∀ rr ∈ t.routes.filter routeCompletes, rr.toId ≠ c.id) →
      (processRoutes t).colonies = t.colonies) := by
  refine ⟨advanceTurn_routes, ?_, ?_, ?_⟩
  · intro s r d hmem huniq hst hdur hd1 k
    have htrack := advanceTurn_route_track s r d hmem huniq hst hdur hd1 k
    refine ⟨?_, htrack.2⟩
    intro hk
    obtain ⟨hpres, -⟩ := htrack.1 hk
    refine ⟨hpres, hst, rfl, rfl, ?_⟩
    have hstat : ({ r with duration := (d : ℤ) - (k : ℤ) } : Route).status = r.status := rfl
    simp only [routeCompletes, hstat, hst, beq_self_eq_true, Bool.true_and,
      decide_eq_true_eq]
    show (d : ℤ) - (k : ℤ) ≤ 1 ↔ k = d - 1
    omega
  · intro t c hc
    show invOfCols ((t.routes.filter routeCompletes).foldl
        (fun cs r => addCargoFirst cs r.toId r.cargo) t.colonies) c.id = _
    exact invOf_deliver_fold c.id (t.routes.filter routeCompletes) t.colonies
      ⟨c, hc, rfl⟩
  · intro t h
    show (t.routes.filter routeCompletes).foldl
        (fun cs r => addCargoFirst cs r.toId r.cargo) t.colonies = t.colonies
    exact deliver_fold_no_match (t.routes.filter routeCompletes) t.colonies
      (fun c hc rr hrr => h c hc rr hrr)

end SolarLogistics

namespace SolarLogistics

/-- Witness for C4: after one turn the sample route (duration 3) survives
with duration 2, in transit, cargo intact, and does not complete (1 is not
the completion turn index 2); and the route-processing delivery accounting
holds on the sample state for the moon colony. -/
theorem claim4_route_delivery_witness :
    (({ sampleRoute with duration := ((3 : ℕ) : ℤ) - ((1 : ℕ) : ℤ) } ∈
        (advanceTurn^[1] routeState).routes ∧
      ({ sampleRoute with duration := ((3 : ℕ) : ℤ) - ((1 : ℕ) : ℤ) } : Route).status =
        RouteStatus.in_transit ∧
      ({ sampleRoute with duration := ((3 : ℕ) : ℤ) - ((1 : ℕ) : ℤ) } : Route).cargo =
        sampleRoute.cargo ∧
      ({ sampleRoute with duration := ((3 : ℕ) : ℤ) - ((1 : ℕ) : ℤ) } : Route).toId =
        sampleRoute.toId ∧
      (routeCompletes { sampleRoute with
          duration := ((3 : ℕ) : ℤ) - ((1 : ℕ) : ℤ) } = true ↔ (1 : ℕ) = 3 - 1)) ∧
    invOfCols (processRoutes routeState).colonies sampleColony.id =
      (invOfCols routeState.colonies sampleColony.id).add
        (sumCargoTo (routeState.routes.filter routeCompletes) sampleColony.id)) :=
  ⟨(claim4_route_delivery.2.1 routeState sampleRoute 3 (by decide) (by decide)
      rfl rfl (by omega) 1).1 (by omega),
   claim4_route_delivery.2.2.1 routeState sampleColony (by decide)⟩

end SolarLogistics
